import Mathlib

/-!
Verification of the BlinkStick host-side control library (robberwick/blinkstick-python).

The Python sources are shallowly embedded: pure protocol-encoding functions become Lean
functions on `Nat`/`Int`/`List Nat`; the stateful USB backend becomes explicit state
passing over a small transport model; fallible Python code (exceptions) becomes `Except`.
Byte values are modelled as `Nat` (Python guarantees 0..255 where it matters, via
`bytearray` range checks and USB byte responses).
-/

namespace BlinkStickLib

/-- Embeds `BlinkStick._determine_report_id` (blinkstick.py).
Defaults are `report_id = 9`, `max_leds = 64`; the if/elif chain overrides them
for `led_count ≤ 24 / 48 / 96 / 192`. Returns `(report_id, max_leds)`. -/
def determine_report_id (led_count : Nat) : Nat × Nat :=
  if led_count ≤ 8 * 3 then (6, 8)
  else if led_count ≤ 16 * 3 then (7, 16)
  else if led_count ≤ 32 * 3 then (8, 32)
  else if led_count ≤ 64 * 3 then (9, 64)
  else (9, 64)

/-- Embeds the report built by `BlinkStick.set_led_data` (blinkstick.py):
`report = [0, channel]` followed by `max_leds * 3` entries, entry `i` being
`data[i]` when `i < len(data)` and `0` otherwise. -/
def set_led_data_report (channel : Nat) (data : List Nat) : List Nat :=
  0 :: channel ::
    (List.range ((determine_report_id data.length).2 * 3)).map (fun i => data.getD i 0)

/-- Embeds `string_to_info_block_data` (utilities.py). The string is modelled as its
list of character code points. The source truncates to 31 characters, allocates
`[1] + [0]*31`, and writes code point `c` of character `i` at position `i + 1`. -/
def string_to_info_block_data (data : List Nat) : List Nat :=
  let info_block_data := data.take 31
  let byte_array := 1 :: List.replicate 31 0
  info_block_data.enum.foldl (fun arr p => arr.set (p.1 + 1) p.2) byte_array

/-- Embeds the decode loop shared by `BlinkStick.get_info_block1` / `get_info_block2`
(blinkstick.py): skip the report byte, then accumulate characters until the first
zero byte. -/
def info_block_decode (device_bytes : List Nat) : List Nat :=
  (device_bytes.drop 1).takeWhile (fun i => i ≠ 0)

/-- Modelled from the spec: `remap_color` lives in `blinkstick/colors.py`, which is
not among the provided sources. The spec says resolved values are remapped into
`[0, max_rgb_value]` by proportional scaling `v * max / 255`, rounded; the rounding
mode at exact halves is not pinned down by the spec (and no claim depends on it),
so half-up is used: `⌊(v * max / 255) + 1/2⌋ = (2 * v * max + 255) / 510`. -/
def remap_color (value max_value : Nat) : Nat :=
  (2 * value * max_value + 255) / 510

/-- Modelled from the spec: componentwise remap of an (r, g, b) triple into
`[0, max_rgb_value]` (`remap_rgb_value` in the missing `blinkstick/colors.py`). -/
def remap_rgb_value (rgb : Nat × Nat × Nat) (max_value : Nat) : Nat × Nat × Nat :=
  (remap_color rgb.1 max_value, remap_color rgb.2.1 max_value,
   remap_color rgb.2.2 max_value)

/-- Modelled from the spec: `remap_rgb_value_reverse` (missing
`blinkstick/colors.py`) descales a remapped value back into the 0..255 range, the
inverse proportional scaling `v * 255 / max_value`, rounded (half-up as above);
0 when `max_value = 0`. -/
def remap_color_reverse (value max_value : Nat) : Nat :=
  if max_value = 0 then 0 else (2 * value * 255 + max_value) / (2 * max_value)

/-- Componentwise descaling of an (r, g, b) triple (see `remap_color_reverse`). -/
def remap_rgb_value_reverse (rgb : Nat × Nat × Nat) (max_value : Nat) :
    Nat × Nat × Nat :=
  (remap_color_reverse rgb.1 max_value, remap_color_reverse rgb.2.1 max_value,
   remap_color_reverse rgb.2.2 max_value)

/-- Python truthiness of an optional string argument (`if name:` in
`_determine_rgb`): present and nonempty. -/
def truthy : Option String → Bool
  | some s => s != ""
  | none => false

/-- Embeds `BlinkStick._determine_rgb` (blinkstick.py). The color-name / hex lookup
tables live in the missing `blinkstick/colors.py`, so the resolvers are parameters,
per the spec's Color Resolution Capability; `none` models the `ValueError` the
source catches, which yields black before the remap. `random_color` stands for the
three `randint(0, 255)` draws of the `name="random"` special case. -/
def determine_rgb (max_rgb_value : Nat) (red green blue : Nat)
    (name hex : Option String)
    (resolve_name resolve_hex : String → Option (Nat × Nat × Nat))
    (random_color : Nat × Nat × Nat) : Nat × Nat × Nat :=
  let rgb :=
    if truthy name then
      let n := name.getD ""
      if n = "random" then random_color
      else (resolve_name n).getD (0, 0, 0)
    else if truthy hex then (resolve_hex (hex.getD "")).getD (0, 0, 0)
    else (red, green, blue)
  remap_rgb_value rgb max_rgb_value

/-- Embeds the report construction of `BlinkStick.set_color` (blinkstick.py):
resolve the color, apply inverse mode, then build either the single-LED report
(report id 1, payload `[0, r, g, b]`) or the indexed report (report id 5, payload
`[5, channel, index, r, g, b]`). `int(round(v, 3))` is the identity on the integer
color values. Color bytes stay in 0..255 (resolver output and remap target), so
`Nat` subtraction models `255 - v` exactly. -/
def set_color_report (inverse : Bool) (max_rgb_value : Nat) (channel index : Nat)
    (red green blue : Nat) (name hex : Option String)
    (resolve_name resolve_hex : String → Option (Nat × Nat × Nat))
    (random_color : Nat × Nat × Nat) : Nat × List Nat :=
  let rgb := determine_rgb max_rgb_value red green blue name hex resolve_name
    resolve_hex random_color
  let r := if inverse then 255 - rgb.1 else rgb.1
  let g := if inverse then 255 - rgb.2.1 else rgb.2.1
  let b := if inverse then 255 - rgb.2.2 else rgb.2.2
  if index = 0 ∧ channel = 0 then (1, [0, r, g, b])
  else (5, [5, channel, index, r, g, b])

/-- Embeds the transfer and error-reporting behavior of `BlinkStick.set_color`: the
report is sent with `control_transfer`; with `error_reporting` off, any exception
from the transfer is swallowed. The transfer is a parameter (transport capability);
`Except.error ()` models a raised exception. -/
def set_color_result (error_reporting : Bool)
    (transfer : Nat × List Nat → Except Unit Unit)
    (inverse : Bool) (max_rgb_value : Nat) (channel index : Nat)
    (red green blue : Nat) (name hex : Option String)
    (resolve_name resolve_hex : String → Option (Nat × Nat × Nat))
    (random_color : Nat × Nat × Nat) : Except Unit Unit :=
  let report := set_color_report inverse max_rgb_value channel index red green blue
    name hex resolve_name resolve_hex random_color
  if error_reporting then transfer report
  else
    match transfer report with
    | .ok _ => .ok ()
    | .error _ => .ok ()

/-- Python `int()` truncation toward zero, on a rational. -/
def py_int (q : ℚ) : Int :=
  if 0 ≤ q then ⌊q⌋ else ⌈q⌉

/-- Embeds the sequence of `set_color` calls issued by `BlinkStick.morph`
(blinkstick.py), as the list of (red, green, blue) argument triples: the start
color, the `steps` interpolated gradient entries (`d = n / (steps + 1)` for
`n = 1 .. steps`), then exactly the target. `current` is the color read back from
the device via `_get_color_rgb`. Python computes the gradient entries with binary
floats; rationals stand in for them here (the first and last calls involve no
float arithmetic, and no claim depends on the interior entries). -/
def morph_set_color_calls (max_rgb_value : Nat) (current : Nat × Nat × Nat)
    (red green blue : Nat) (name hex : Option String)
    (resolve_name resolve_hex : String → Option (Nat × Nat × Nat))
    (random_color : Nat × Nat × Nat) (steps : Nat) : List (Int × Int × Int) :=
  let rgbEnd := remap_rgb_value_reverse
    (determine_rgb max_rgb_value red green blue name hex resolve_name resolve_hex
      random_color) max_rgb_value
  let rgbStart0 := remap_rgb_value_reverse current max_rgb_value
  let rgbStart :=
    if 255 < rgbStart0.1 ∨ 255 < rgbStart0.2.1 ∨ 255 < rgbStart0.2.2 then
      ((0 : Nat), (0 : Nat), (0 : Nat))
    else rgbStart0
  let steps1 := steps + 1
  let gradient : List (ℚ × ℚ × ℚ) := (List.range' 1 steps).map (fun n =>
    let d : ℚ := (n : ℚ) / (steps1 : ℚ)
    ((rgbStart.1 : ℚ) * (1 - d) + (rgbEnd.1 : ℚ) * d,
     (rgbStart.2.1 : ℚ) * (1 - d) + (rgbEnd.2.1 : ℚ) * d,
     (rgbStart.2.2 : ℚ) * (1 - d) + (rgbEnd.2.2 : ℚ) * d))
  ((rgbStart.1 : Int), (rgbStart.2.1 : Int), (rgbStart.2.2 : Int))
    :: gradient.map (fun g => (py_int g.1, py_int g.2.1, py_int g.2.2))
    ++ [((rgbEnd.1 : Int), (rgbEnd.2.1 : Int), (rgbEnd.2.2 : Int))]

/-- Embeds `BlinkStick.get_led_data` (blinkstick.py): the slice
`device_bytes[2 : 2 + count * 3]` of the device response (Python slices clamp at
the list length). -/
def get_led_data (count : Nat) (device_bytes : List Nat) : List Nat :=
  (device_bytes.drop 2).take (count * 3)

/-- Embeds `BlinkStick._get_color_rgb` (blinkstick.py). `resp` is the raw device
response to the control transfer the taken branch issues (index 0: the 33-byte
single-color report; index > 0: the LED data frame report, passed through
`get_led_data((index + 1) * 3)`). Response bytes are in 0..255, so `Nat`
subtraction models `255 - b` exactly; out-of-range reads, which would raise in
Python, default to 0 here. -/
def get_color_rgb (inverse : Bool) (index : Nat) (resp : List Nat) :
    Nat × Nat × Nat :=
  if index = 0 then
    if inverse then
      (255 - resp.getD 1 0, 255 - resp.getD 2 0, 255 - resp.getD 3 0)
    else
      (resp.getD 1 0, resp.getD 2 0, resp.getD 3 0)
  else
    let data := get_led_data ((index + 1) * 3) resp
    (data.getD (index * 3 + 1) 0, data.getD (index * 3) 0,
     data.getD (index * 3 + 2) 0)

/-- A USB device as the unix-like backend observes it: the serial string
descriptor read (`usb.util.get_string(d, 3, 1033)`; `none` models a read that
raises, making `find_by_serial` skip the device), and whether `open_device`
succeeds on it (kernel driver active / detachable). -/
structure Device where
  serialDescr : Option String
  kernelDriverActive : Bool
  detachOk : Bool
deriving DecidableEq

/-- The errors `UnixLikeBackend.control_transfer` (unix_like.py) can surface:
a raw `usb.USBError` escaping the retried transfer, a `BlinkStickException` from
a failed kernel-driver detach in `open_device`, and the `BlinkStickException`
"Could not communicate with BlinkStick {serial}" carrying the cached serial. -/
inductive BsError where
  | transport
  | couldNotDetach
  | communicationLost (serial : String)
deriving DecidableEq

/-- The mutable state of `UnixLikeBackend`: the bound device and the cached
serial. -/
structure Backend where
  device : Device
  serial : String
deriving DecidableEq

/-- Embeds `UnixLikeBackend.find_by_serial` (unix_like.py): scan the enumerated
devices and return the first whose serial string descriptor reads back equal to
`serial`; a device whose descriptor read raises is skipped (the exception is
printed and the loop continues). -/
def find_by_serial (devices : List Device) (serial : String) : Option Device :=
  devices.find? (fun d => d.serialDescr == some serial)

/-- Embeds `UnixLikeBackend.open_device` (unix_like.py) on a bound device: detach
the kernel driver when it is active; a failed detach raises. -/
def open_device (d : Device) : Except BsError Unit :=
  if d.kernelDriverActive then
    if d.detachOk then Except.ok () else Except.error BsError.couldNotDetach
  else Except.ok ()

/-- Embeds `UnixLikeBackend._refresh_device` (unix_like.py): an empty cached
serial is falsy and yields `False`; otherwise look the device up by serial, and
on a hit rebind to it, re-open it (a detach failure propagates out of the
caller's except block) and return `True`; a miss falls through to the implicit
falsy `None`. -/
def refresh_device (devices : List Device) (b : Backend) :
    Except BsError (Bool × Backend) :=
  if b.serial = "" then Except.ok (false, b)
  else
    match find_by_serial devices b.serial with
    | some d =>
      match open_device d with
      | Except.ok _ => Except.ok (true, { b with device := d })
      | Except.error e => Except.error e
    | none => Except.ok (false, b)

/-- Embeds `UnixLikeBackend.control_transfer` (unix_like.py). `ctrl dev k` is the
transport outcome of attempt number `k` of this call on device `dev`
(`Except.error ()` models `usb.USBError`); the transfer parameters
(bmRequestType, bRequest, wValue, wIndex, payload) are fixed for the call and
folded into `ctrl`. On a first-attempt failure the device is refreshed; after a
successful rebind the transfer is retried directly on the transport — so a
second failure escapes as the raw transport error — while a failed rebind
raises "could not communicate" carrying the cached serial. -/
def control_transfer {α : Type} (devices : List Device)
    (ctrl : Device → Nat → Except Unit α) (b : Backend) :
    Except BsError (α × Backend) :=
  match ctrl b.device 0 with
  | Except.ok r => Except.ok (r, b)
  | Except.error _ =>
    match refresh_device devices b with
    | Except.error e => Except.error e
    | Except.ok (true, b2) =>
      match ctrl b2.device 1 with
      | Except.ok r => Except.ok (r, b2)
      | Except.error _ => Except.error BsError.transport
    | Except.ok (false, b2) => Except.error (BsError.communicationLost b2.serial)

/-- A pixel triple as stored in the framebuffers: the Python source keeps
`[g, r, b]` lists, so the tuple is (g, r, b) in storage order. -/
abbrev GRB := Nat × Nat × Nat

/-- Embeds the `BlinkStickPro` framebuffer state (blinkstick.py): the per-channel
LED counts fixed at construction, the max-rgb clamp, and the three channel
buffers `data[0..2]`. The `bstick` device binding is not modelled: `send_data`
either returns early when unbound or swallows transfer failures, and in all
cases it reads the buffers without writing them. -/
structure BlinkStickPro where
  r_led_count : Nat
  g_led_count : Nat
  b_led_count : Nat
  max_rgb_value : Nat
  data : List (List GRB)
deriving DecidableEq

/-- Embeds `BlinkStickPro.__init__`: each channel buffer pre-populated with
`led_count` zero pixels. -/
def proInit (r_led_count g_led_count b_led_count max_rgb_value : Nat) :
    BlinkStickPro :=
  { r_led_count := r_led_count, g_led_count := g_led_count,
    b_led_count := b_led_count, max_rgb_value := max_rgb_value,
    data := [List.replicate r_led_count (0, 0, 0),
             List.replicate g_led_count (0, 0, 0),
             List.replicate b_led_count (0, 0, 0)] }

/-- Embeds `BlinkStickPro.set_color`: optional remap, then store `[g, r, b]` at
`data[channel][index]`. Python raises on an out-of-range channel or index (the
spec bounds indices to `[0, channel_length)`); `List.set` leaves the buffer
unchanged there, which coincides with Python on every in-bounds use. -/
def proSetColor (p : BlinkStickPro) (channel index r g b : Nat)
    (remap_values : Bool) : BlinkStickPro :=
  let r2 := if remap_values then remap_color r p.max_rgb_value else r
  let g2 := if remap_values then remap_color g p.max_rgb_value else g
  let b2 := if remap_values then remap_color b p.max_rgb_value else b
  { p with
    data := p.data.set channel ((p.data.getD channel []).set index (g2, r2, b2)) }

/-- Embeds `BlinkStickPro.get_color`: read `val = data[channel][index]`, return
`(val[1], val[0], val[2])` — the (r, g, b) view of the stored (g, r, b). -/
def proGetColor (p : BlinkStickPro) (channel index : Nat) : Nat × Nat × Nat :=
  let val := (p.data.getD channel []).getD index (0, 0, 0)
  (val.2.1, val.1, val.2.2)

/-- Embeds `BlinkStickPro.clear`: set every pixel of every channel to black via
`set_color` (with its default remap, which maps 0 to 0). -/
def proClear (p : BlinkStickPro) : BlinkStickPro :=
  let p1 := (List.range p.r_led_count).foldl
    (fun acc x => proSetColor acc 0 x 0 0 0 true) p
  let p2 := (List.range p1.g_led_count).foldl
    (fun acc x => proSetColor acc 1 x 0 0 0 true) p1
  (List.range p2.b_led_count).foldl
    (fun acc x => proSetColor acc 2 x 0 0 0 true) p2

/-- Embeds `BlinkStickPro.send_data`: flatten the channel's pixel lists into the
packet handed to `set_led_data` ((g, r, b) per pixel in index order). Transfer
failures are printed and swallowed and the buffers are never written, so the
state is returned unchanged alongside the packet. -/
def proSendData (p : BlinkStickPro) (channel : Nat) : BlinkStickPro × List Nat :=
  (p, (p.data.getD channel []).flatMap (fun v => [v.1, v.2.1, v.2.2]))

/-- Embeds `BlinkStickPro.send_data_all`: send each channel with a nonzero LED
count, in order R, G, B. -/
def proSendDataAll (p : BlinkStickPro) : BlinkStickPro :=
  let p1 := if 0 < p.r_led_count then (proSendData p 0).1 else p
  let p2 := if 0 < p1.g_led_count then (proSendData p1 1).1 else p1
  if 0 < p2.b_led_count then (proSendData p2 2).1 else p2

/-- The buffer-touching operations of the linear framebuffer (`get_color` is
pure and `off` is `clear` followed by `send_data_all`). -/
inductive ProOp where
  | setColor (channel index r g b : Nat) (remap_values : Bool)
  | clear
  | sendData (channel : Nat)
  | sendDataAll

/-- Applies one linear-framebuffer operation. -/
def proApply (p : BlinkStickPro) : ProOp → BlinkStickPro
  | ProOp.setColor c i r g b rm => proSetColor p c i r g b rm
  | ProOp.clear => proClear p
  | ProOp.sendData c => (proSendData p c).1
  | ProOp.sendDataAll => proSendDataAll p

/-- Applies a sequence of linear-framebuffer operations. -/
def proApplyAll (p : BlinkStickPro) (ops : List ProOp) : BlinkStickPro :=
  ops.foldl proApply p

/-- The per-channel buffer lengths of a linear framebuffer. -/
def proChannelLengths (p : BlinkStickPro) : List Nat :=
  p.data.map List.length

/-- Embeds the `BlinkStickProMatrix` state (blinkstick.py): channel geometry,
the inherited per-channel LED counts and channel buffers, the overall
`rows = max(r_rows, g_rows, b_rows)` and `cols = r_columns + g_columns +
b_columns`, and the flat `matrix_data` buffer. None of the geometry fields is
ever written after construction. -/
structure BlinkStickProMatrix where
  r_columns : Nat
  r_rows : Nat
  g_columns : Nat
  g_rows : Nat
  b_columns : Nat
  b_rows : Nat
  r_led_count : Nat
  g_led_count : Nat
  b_led_count : Nat
  rows : Nat
  cols : Nat
  max_rgb_value : Nat
  data : List (List GRB)
  matrix_data : List GRB
deriving DecidableEq

/-- Embeds `BlinkStickProMatrix.__init__`: the channel LED counts are
`columns * rows` per channel (passed to the `BlinkStickPro` constructor), and
`matrix_data` is pre-populated with `rows * cols` zero pixels. -/
def matrixInit (r_columns r_rows g_columns g_rows b_columns b_rows
    max_rgb_value : Nat) : BlinkStickProMatrix :=
  { r_columns := r_columns, r_rows := r_rows, g_columns := g_columns,
    g_rows := g_rows, b_columns := b_columns, b_rows := b_rows,
    r_led_count := r_columns * r_rows, g_led_count := g_columns * g_rows,
    b_led_count := b_columns * b_rows,
    rows := max r_rows (max g_rows b_rows),
    cols := r_columns + g_columns + b_columns,
    max_rgb_value := max_rgb_value,
    data := [List.replicate (r_columns * r_rows) (0, 0, 0),
             List.replicate (g_columns * g_rows) (0, 0, 0),
             List.replicate (b_columns * b_rows) (0, 0, 0)],
    matrix_data := List.replicate
      (max r_rows (max g_rows b_rows) * (r_columns + g_columns + b_columns))
      (0, 0, 0) }

/-- Embeds `BlinkStickProMatrix.set_color` together with `_coord_to_index`:
optional remap, then store `[g, r, b]` at flat index `y * cols + x`. Coordinates
are Python ints. Python raises when the index is at or beyond the buffer length
and wraps around for a negative index; every in-bounds use (the only ones the
claims exercise) coincides with `List.set`, which leaves the buffer unchanged
out of range here. -/
def matrixSetColor (m : BlinkStickProMatrix) (x y : Int) (r g b : Nat)
    (remap_values : Bool) : BlinkStickProMatrix :=
  let r2 := if remap_values then remap_color r m.max_rgb_value else r
  let g2 := if remap_values then remap_color g m.max_rgb_value else g
  let b2 := if remap_values then remap_color b m.max_rgb_value else b
  let idx := y * (m.cols : Int) + x
  { m with
    matrix_data :=
      if 0 ≤ idx then m.matrix_data.set idx.toNat (g2, r2, b2)
      else m.matrix_data }

/-- Embeds `BlinkStickProMatrix.get_color`: read `val = matrix_data[y*cols+x]`,
return `(val[1], val[0], val[2])`. Out-of-range reads default to black (Python
would raise, or wrap for a negative index; the claims only read in bounds). -/
def matrixGetColor (m : BlinkStickProMatrix) (x y : Int) : Nat × Nat × Nat :=
  let idx := y * (m.cols : Int) + x
  let val := if 0 ≤ idx then m.matrix_data.getD idx.toNat (0, 0, 0) else (0, 0, 0)
  (val.2.1, val.1, val.2.2)

/-- The interior pass of `BlinkStickProMatrix.shift_left` for one row `y`:
`for x in range(cols - 1): set_color(x, y, *get_color(x + 1, y), remap=False)`.
The loop bound reads `self.cols`, which no operation ever writes, so the
enclosing matrix's `cols` is also the current one. -/
def shiftLeftRowPass (cols : Nat) (acc : BlinkStickProMatrix) (y : Nat) :
    BlinkStickProMatrix :=
  (List.range (cols - 1)).foldl (fun acc2 (x : Nat) =>
    let c := matrixGetColor acc2 ((x : Int) + 1) (y : Int)
    matrixSetColor acc2 (x : Int) (y : Int) c.1 c.2.1 c.2.2 false) acc

/-- Embeds `BlinkStickProMatrix.shift_left`: remember the first column when
wrapping, move every pixel one column left, then either blacken the last column
(`remove`) or refill it with the remembered one. -/
def matrixShiftLeft (m : BlinkStickProMatrix) (remove : Bool) :
    BlinkStickProMatrix :=
  let temp := if remove then []
    else (List.range m.rows).map (fun (y : Nat) => matrixGetColor m 0 (y : Int))
  let m1 := (List.range m.rows).foldl (shiftLeftRowPass m.cols) m
  if remove then
    (List.range m.rows).foldl (fun acc (y : Nat) =>
      matrixSetColor acc ((m.cols : Int) - 1) (y : Int) 0 0 0 false) m1
  else
    (List.range m.rows).foldl (fun acc (y : Nat) =>
      let col := temp.getD y (0, 0, 0)
      matrixSetColor acc ((m.cols : Int) - 1) (y : Int) col.1 col.2.1 col.2.2
        false) m1

/-- Embeds `BlinkStickProMatrix.shift_right` (the mirror image of `shift_left`,
iterating `x` over `reversed(range(1, cols))`). -/
def matrixShiftRight (m : BlinkStickProMatrix) (remove : Bool) :
    BlinkStickProMatrix :=
  let temp := if remove then []
    else (List.range m.rows).map
      (fun (y : Nat) => matrixGetColor m ((m.cols : Int) - 1) (y : Int))
  let m1 := (List.range m.rows).foldl (fun acc (y : Nat) =>
    ((List.range' 1 (m.cols - 1)).reverse).foldl (fun acc2 (x : Nat) =>
      let c := matrixGetColor acc2 ((x : Int) - 1) (y : Int)
      matrixSetColor acc2 (x : Int) (y : Int) c.1 c.2.1 c.2.2 false) acc) m
  if remove then
    (List.range m.rows).foldl (fun acc (y : Nat) =>
      matrixSetColor acc 0 (y : Int) 0 0 0 false) m1
  else
    (List.range m.rows).foldl (fun acc (y : Nat) =>
      let col := temp.getD y (0, 0, 0)
      matrixSetColor acc 0 (y : Int) col.1 col.2.1 col.2.2 false) m1

/-- Embeds `BlinkStickProMatrix.shift_down` (`y` over `reversed(range(1, rows))`,
each row copied from the one above, then row 0 cleared or refilled). -/
def matrixShiftDown (m : BlinkStickProMatrix) (remove : Bool) :
    BlinkStickProMatrix :=
  let temp := if remove then []
    else (List.range m.cols).map
      (fun (x : Nat) => matrixGetColor m (x : Int) ((m.rows : Int) - 1))
  let m1 := ((List.range' 1 (m.rows - 1)).reverse).foldl (fun acc (y : Nat) =>
    (List.range m.cols).foldl (fun acc2 (x : Nat) =>
      let c := matrixGetColor acc2 (x : Int) ((y : Int) - 1)
      matrixSetColor acc2 (x : Int) (y : Int) c.1 c.2.1 c.2.2 false) acc) m
  if remove then
    (List.range m.cols).foldl (fun acc (x : Nat) =>
      matrixSetColor acc (x : Int) 0 0 0 0 false) m1
  else
    (List.range m.cols).foldl (fun acc (x : Nat) =>
      let col := temp.getD x (0, 0, 0)
      matrixSetColor acc (x : Int) 0 col.1 col.2.1 col.2.2 false) m1

/-- Embeds `BlinkStickProMatrix.shift_up` (each row copied from the one below,
then the last row cleared or refilled). -/
def matrixShiftUp (m : BlinkStickProMatrix) (remove : Bool) :
    BlinkStickProMatrix :=
  let temp := if remove then []
    else (List.range m.cols).map (fun (x : Nat) => matrixGetColor m (x : Int) 0)
  let m1 := (List.range m.cols).foldl (fun acc (x : Nat) =>
    (List.range (m.rows - 1)).foldl (fun acc2 (y : Nat) =>
      let c := matrixGetColor acc2 (x : Int) ((y : Int) + 1)
      matrixSetColor acc2 (x : Int) (y : Int) c.1 c.2.1 c.2.2 false) acc) m
  if remove then
    (List.range m.cols).foldl (fun acc (x : Nat) =>
      matrixSetColor acc (x : Int) ((m.rows : Int) - 1) 0 0 0 false) m1
  else
    (List.range m.cols).foldl (fun acc (x : Nat) =>
      let col := temp.getD x (0, 0, 0)
      matrixSetColor acc (x : Int) ((m.rows : Int) - 1) col.1 col.2.1 col.2.2
        false) m1

/-- The plotting loop of `BlinkStickProMatrix.line` after normalization:
`for x in range(x1, x2 + 1)`, plotting via `set_color` (default remap) and
accumulating the drawn points, with the Bresenham error update. The fuel is the
number of remaining `x` values. -/
def lineLoop (is_steep : Bool) (r g b : Nat) (delta_x : Int) (delta_y : Nat)
    (y_step : Int) :
    Nat → Int → Int → Int → BlinkStickProMatrix → List (Int × Int) →
    BlinkStickProMatrix × List (Int × Int)
  | 0, _x, _y, _error, m, points => (m, points)
  | Nat.succ n, x, y, error, m, points =>
    let m2 := if is_steep then matrixSetColor m y x r g b true
      else matrixSetColor m x y r g b true
    let points2 := points ++ [if is_steep then (y, x) else (x, y)]
    let error2 := error - (delta_y : Int)
    let y2 := if error2 < 0 then y + y_step else y
    let error3 := if error2 < 0 then error2 + delta_x else error2
    lineLoop is_steep r g b delta_x delta_y y_step n (x + 1) y2 error3 m2 points2

/-- Embeds `BlinkStickProMatrix.line` (Bresenham): steep-axis swap, direction
normalization (recording `rev`), error seeded with `int(delta_x / 2)` (here
`delta_x ≥ 0`, so every division convention agrees), then the plotting loop;
the point list is reversed when the endpoints were swapped. -/
def matrixLine (m : BlinkStickProMatrix) (x1 y1 x2 y2 : Int) (r g b : Nat) :
    BlinkStickProMatrix × List (Int × Int) :=
  let is_steep := (y2 - y1).natAbs > (x2 - x1).natAbs
  let s1 := if is_steep then (y1, x1, y2, x2) else (x1, y1, x2, y2)
  match s1 with
  | (a1, b1, a2, b2) =>
    let s2 := if a1 > a2 then (a2, b2, a1, b1, true) else (a1, b1, a2, b2, false)
    match s2 with
    | (u1, v1, u2, v2, rev) =>
      let delta_x := u2 - u1
      let delta_y := (v2 - v1).natAbs
      let error := delta_x / 2
      let y_step : Int := if v1 < v2 then 1 else -1
      let count := (u2 - u1 + 1).toNat
      let res := lineLoop is_steep r g b delta_x delta_y y_step count u1 v1
        error m []
      (res.1, if rev then res.2.reverse else res.2)

/-- Embeds `BlinkStickProMatrix.rectangle`: four edge lines. -/
def matrixRectangle (m : BlinkStickProMatrix) (x1 y1 x2 y2 : Int) (r g b : Nat) :
    BlinkStickProMatrix :=
  let m1 := (matrixLine m x1 y1 x1 y2 r g b).1
  let m2 := (matrixLine m1 x1 y1 x2 y1 r g b).1
  let m3 := (matrixLine m2 x2 y1 x2 y2 r g b).1
  (matrixLine m3 x1 y2 x2 y2 r g b).1

/-- Embeds `BlinkStickProMatrix.number`: the ten hard-coded 3x5 digit glyphs
drawn with `line`/`set_color`; any other digit draws nothing. -/
def matrixNumber (m : BlinkStickProMatrix) (x y : Int) (n : Nat) (r g b : Nat) :
    BlinkStickProMatrix :=
  if n = 0 then matrixRectangle m x y (x + 2) (y + 4) r g b
  else if n = 1 then
    let m1 := (matrixLine m (x + 1) y (x + 1) (y + 4) r g b).1
    let m2 := (matrixLine m1 x (y + 4) (x + 2) (y + 4) r g b).1
    matrixSetColor m2 x (y + 1) r g b true
  else if n = 2 then
    let m1 := (matrixLine m x y (x + 2) y r g b).1
    let m2 := (matrixLine m1 x (y + 2) (x + 2) (y + 2) r g b).1
    let m3 := (matrixLine m2 x (y + 4) (x + 2) (y + 4) r g b).1
    let m4 := matrixSetColor m3 (x + 2) (y + 1) r g b true
    matrixSetColor m4 x (y + 3) r g b true
  else if n = 3 then
    let m1 := (matrixLine m x y (x + 2) y r g b).1
    let m2 := (matrixLine m1 x (y + 2) (x + 2) (y + 2) r g b).1
    let m3 := (matrixLine m2 x (y + 4) (x + 2) (y + 4) r g b).1
    let m4 := matrixSetColor m3 (x + 2) (y + 1) r g b true
    matrixSetColor m4 (x + 2) (y + 3) r g b true
  else if n = 4 then
    let m1 := (matrixLine m x y x (y + 2) r g b).1
    let m2 := (matrixLine m1 (x + 2) y (x + 2) (y + 4) r g b).1
    matrixSetColor m2 (x + 1) (y + 2) r g b true
  else if n = 5 then
    let m1 := (matrixLine m x y (x + 2) y r g b).1
    let m2 := (matrixLine m1 x (y + 2) (x + 2) (y + 2) r g b).1
    let m3 := (matrixLine m2 x (y + 4) (x + 2) (y + 4) r g b).1
    let m4 := matrixSetColor m3 x (y + 1) r g b true
    matrixSetColor m4 (x + 2) (y + 3) r g b true
  else if n = 6 then
    let m1 := (matrixLine m x y (x + 2) y r g b).1
    let m2 := (matrixLine m1 x (y + 2) (x + 2) (y + 2) r g b).1
    let m3 := (matrixLine m2 x (y + 4) (x + 2) (y + 4) r g b).1
    let m4 := matrixSetColor m3 x (y + 1) r g b true
    let m5 := matrixSetColor m4 (x + 2) (y + 3) r g b true
    matrixSetColor m5 x (y + 3) r g b true
  else if n = 7 then
    let m1 := (matrixLine m (x + 1) (y + 2) (x + 1) (y + 4) r g b).1
    let m2 := (matrixLine m1 x y (x + 2) y r g b).1
    matrixSetColor m2 (x + 2) (y + 1) r g b true
  else if n = 8 then
    let m1 := (matrixLine m x y (x + 2) y r g b).1
    let m2 := (matrixLine m1 x (y + 2) (x + 2) (y + 2) r g b).1
    let m3 := (matrixLine m2 x (y + 4) (x + 2) (y + 4) r g b).1
    let m4 := matrixSetColor m3 x (y + 1) r g b true
    let m5 := matrixSetColor m4 (x + 2) (y + 1) r g b true
    let m6 := matrixSetColor m5 (x + 2) (y + 3) r g b true
    matrixSetColor m6 x (y + 3) r g b true
  else if n = 9 then
    let m1 := (matrixLine m x y (x + 2) y r g b).1
    let m2 := (matrixLine m1 x (y + 2) (x + 2) (y + 2) r g b).1
    let m3 := (matrixLine m2 x (y + 4) (x + 2) (y + 4) r g b).1
    let m4 := matrixSetColor m3 x (y + 1) r g b true
    let m5 := matrixSetColor m4 (x + 2) (y + 1) r g b true
    matrixSetColor m5 (x + 2) (y + 3) r g b true
  else m

/-- Embeds `BlinkStickProMatrix.clear`: blacken every (x, y) via `set_color`
(default remap, which maps 0 to 0). -/
def matrixClear (m : BlinkStickProMatrix) : BlinkStickProMatrix :=
  (List.range m.rows).foldl (fun acc (y : Nat) =>
    (List.range m.cols).foldl (fun acc2 (x : Nat) =>
      matrixSetColor acc2 (x : Int) (y : Int) 0 0 0 true) acc) m

/-- The Python slice `l[start:stop]` for nonnegative bounds (clamped at the list
length). -/
def pySlice (l : List GRB) (start stop : Nat) : List GRB :=
  (l.take stop).drop start

/-- Embeds `BlinkStickProMatrix.send_data`: compute the channel's contiguous
column range, REBUILD `data[channel]` from the per-row slices of `matrix_data`,
then delegate to the linear send (which only reads). Note the rebuilt channel
has `rows * (end_col - start_col)` pixels — `rows` is the overall maximum, not
the channel's own row count. -/
def matrixSendData (m : BlinkStickProMatrix) (channel : Nat) :
    BlinkStickProMatrix :=
  let start_col := if channel = 0 then 0
    else if channel = 1 then m.r_columns
    else if channel = 2 then m.r_columns + m.g_columns
    else 0
  let end_col := if channel = 0 then m.r_columns
    else if channel = 1 then m.r_columns + m.g_columns
    else if channel = 2 then m.r_columns + m.g_columns + m.b_columns
    else 0
  let newChannel := (List.range m.rows).foldl (fun acc y =>
    acc ++ pySlice m.matrix_data (y * m.cols + start_col) (y * m.cols + end_col))
    []
  { m with data := m.data.set channel newChannel }

/-- Embeds the inherited `send_data_all` as dispatched on a matrix: send each
channel with a nonzero LED count, in order R, G, B. -/
def matrixSendDataAll (m : BlinkStickProMatrix) : BlinkStickProMatrix :=
  let m1 := if 0 < m.r_led_count then matrixSendData m 0 else m
  let m2 := if 0 < m1.g_led_count then matrixSendData m1 1 else m1
  if 0 < m2.b_led_count then matrixSendData m2 2 else m2

/-- The buffer-touching operations of the matrix framebuffer (`get_color` is
pure). -/
inductive MatrixOp where
  | setColor (x y : Int) (r g b : Nat) (remap_values : Bool)
  | clear
  | shiftLeft (remove : Bool)
  | shiftRight (remove : Bool)
  | shiftDown (remove : Bool)
  | shiftUp (remove : Bool)
  | line (x1 y1 x2 y2 : Int) (r g b : Nat)
  | rectangle (x1 y1 x2 y2 : Int) (r g b : Nat)
  | number (x y : Int) (n r g b : Nat)
  | sendData (channel : Nat)
  | sendDataAll

/-- Applies one matrix-framebuffer operation. -/
def matrixApply (m : BlinkStickProMatrix) : MatrixOp → BlinkStickProMatrix
  | MatrixOp.setColor x y r g b rm => matrixSetColor m x y r g b rm
  | MatrixOp.clear => matrixClear m
  | MatrixOp.shiftLeft rm => matrixShiftLeft m rm
  | MatrixOp.shiftRight rm => matrixShiftRight m rm
  | MatrixOp.shiftDown rm => matrixShiftDown m rm
  | MatrixOp.shiftUp rm => matrixShiftUp m rm
  | MatrixOp.line x1 y1 x2 y2 r g b => (matrixLine m x1 y1 x2 y2 r g b).1
  | MatrixOp.rectangle x1 y1 x2 y2 r g b => matrixRectangle m x1 y1 x2 y2 r g b
  | MatrixOp.number x y n r g b => matrixNumber m x y n r g b
  | MatrixOp.sendData c => matrixSendData m c
  | MatrixOp.sendDataAll => matrixSendDataAll m

/-- Applies a sequence of matrix-framebuffer operations. -/
def matrixApplyAll (m : BlinkStickProMatrix) (ops : List MatrixOp) :
    BlinkStickProMatrix :=
  ops.foldl matrixApply m

/-- The per-channel buffer lengths of a matrix framebuffer. -/
def matrixChannelLengths (m : BlinkStickProMatrix) : List Nat :=
  m.data.map List.length

/-- The state properties of a matrix framebuffer constructed with the given
geometry that the operations maintain: the construction-time geometry fields,
the flat-buffer length `rows * cols`, and the construction-time channel buffer
lengths. -/
def MatrixShapeOK (rc rr gc gr bc br : Nat) (m : BlinkStickProMatrix) : Prop :=
  m.r_columns = rc ∧ m.g_columns = gc ∧ m.b_columns = bc ∧
  m.rows = max rr (max gr br) ∧ m.cols = rc + gc + bc ∧
  m.matrix_data.length = m.rows * m.cols ∧
  m.data.map List.length = [rc * rr, gc * gr, bc * br]

/-- Same grid geometry and flat-buffer length as a reference matrix (the
geometry fields are never written by any operation). -/
def SameGeom (m0 m : BlinkStickProMatrix) : Prop :=
  m.rows = m0.rows ∧ m.cols = m0.cols ∧
  m.matrix_data.length = m0.matrix_data.length

end BlinkStickLib

namespace BlinkStickLib

-- Helper lemmas ---------------------------------------------------------------

theorem range_map_getD (data : List Nat) (n : Nat) :
    (List.range n).map (fun i => data.getD i 0)
      = data.take n ++ List.replicate (n - data.length) 0 := by
  induction n generalizing data with
  | zero => simp
  | succ m ih =>
    cases data with
    | nil =>
      simp only [List.getD]
      simp [List.map_const']
    | cons d ds =>
      rw [List.range_succ_eq_map, List.map_cons, List.map_map]
      have hcomp : ((fun i => (d :: ds).getD i 0) ∘ Nat.succ)
          = fun i => ds.getD i 0 := by
        funext i
        rfl
      rw [hcomp, ih ds]
      simp [List.getD, Nat.succ_sub_succ]

theorem set_append_shift (a b : List Nat) (n : Nat) (x : Nat) :
    (a ++ b).set (a.length + n) x = a ++ b.set n x := by
  induction a with
  | nil => simp
  | cons h t ih => simp [List.set, Nat.succ_add, ih]

theorem foldl_set_enumFrom (l : List Nat) (k : Nat) (pre post : List Nat)
    (hpre : pre.length = k + 1) (hlen : l.length ≤ post.length) :
    (l.enumFrom k).foldl (fun arr p => arr.set (p.1 + 1) p.2) (pre ++ post)
      = pre ++ l ++ post.drop l.length := by
  induction l generalizing k pre post with
  | nil => simp
  | cons c cs ih =>
    cases post with
    | nil => simp at hlen
    | cons p0 post' =>
      simp only [List.enumFrom, List.foldl_cons]
      have hset : (pre ++ p0 :: post').set (k + 1) c = (pre ++ [c]) ++ post' := by
        have := set_append_shift pre (p0 :: post') 0 c
        rw [hpre] at this
        simpa using this
      rw [hset]
      have hlen2 : cs.length ≤ post'.length := by
        simpa using Nat.succ_le_succ_iff.mp (by simpa using hlen)
      have := ih (k + 1) (pre ++ [c]) post' (by simp [hpre]) hlen2
      rw [this]
      simp

theorem info_block_encode_eq (s : List Nat) :
    string_to_info_block_data s
      = 1 :: (s.take 31 ++ List.replicate (31 - s.length) 0) := by
  unfold string_to_info_block_data
  have hlen : (s.take 31).length ≤ (List.replicate 31 (0 : Nat)).length := by
    simp [List.length_take]
  have h := foldl_set_enumFrom (s.take 31) 0 [1] (List.replicate 31 0) (by simp) hlen
  simp only [List.enum] at h ⊢
  rw [show (1 : Nat) :: List.replicate 31 0 = [1] ++ List.replicate 31 0 from rfl, h]
  rw [List.drop_replicate]
  have : 31 - (s.take 31).length = 31 - s.length := by
    simp [List.length_take]
    omega
  rw [this]
  simp

theorem takeWhile_append_nonzero (t : List Nat) (m : Nat)
    (h : ∀ c ∈ t, c ≠ 0) :
    (t ++ List.replicate m 0).takeWhile (fun i => i ≠ 0) = t := by
  induction t with
  | nil =>
    cases m with
    | zero => simp
    | succ m' => simp [List.replicate, List.takeWhile]
  | cons c cs ih =>
    have hc : c ≠ 0 := h c (by simp)
    have hrest := ih (fun x hx => h x (by simp [hx]))
    simpa [List.takeWhile_cons, hc] using hrest

-- C1 --------------------------------------------------------------------------

/-- C1: the report-id selection returns `(6, 8)` for lengths ≤ 24, `(7, 16)` for
24 < len ≤ 48, `(8, 32)` for 48 < len ≤ 96 and `(9, 64)` for every length > 96;
for the sample lengths 1, 24, 25, 48, 49, 96, 97, 192 it yields report ids
6,6,7,7,8,8,9,9 with `max_leds` 8,8,16,16,32,32,64,64. -/
theorem report_id_selection_table :
    (∀ len : Nat,
      (len ≤ 24 → determine_report_id len = (6, 8)) ∧
      (24 < len → len ≤ 48 → determine_report_id len = (7, 16)) ∧
      (48 < len → len ≤ 96 → determine_report_id len = (8, 32)) ∧
      (96 < len → determine_report_id len = (9, 64))) ∧
    [1, 24, 25, 48, 49, 96, 97, 192].map determine_report_id
      = [(6, 8), (6, 8), (7, 16), (7, 16), (8, 32), (8, 32), (9, 64), (9, 64)] := by
  constructor
  · intro len
    refine ⟨fun h1 => ?_, fun h1 h2 => ?_, fun h1 h2 => ?_, fun h1 => ?_⟩
    · unfold determine_report_id
      rw [if_pos (by omega)]
    · unfold determine_report_id
      rw [if_neg (by omega), if_pos (by omega)]
    · unfold determine_report_id
      rw [if_neg (by omega), if_neg (by omega), if_pos (by omega)]
    · unfold determine_report_id
      rw [if_neg (by omega), if_neg (by omega), if_neg (by omega)]
      by_cases hc : len ≤ 64 * 3
      · rw [if_pos hc]
      · rw [if_neg hc]
  · decide

/-- Witness for C1 at a concrete length in each bracket. -/
theorem report_id_selection_table_witness :
    determine_report_id 100 = (9, 64) :=
  (report_id_selection_table.1 100).2.2.2 (by decide)

-- C9 --------------------------------------------------------------------------

/-- C9: `set_led_data` transmits `[0, channel]` followed by exactly `max_leds * 3`
bytes (with `max_leds` chosen from the data length by the report-id table), byte `i`
being `data[i]` for `i < min(len, max_leds*3)` and `0` otherwise; for data longer
than 192 bytes everything past index 191 is silently dropped. -/
theorem set_led_data_payload (channel : Nat) (data : List Nat) :
    set_led_data_report channel data
      = 0 :: channel ::
          (data.take ((determine_report_id data.length).2 * 3)
            ++ List.replicate ((determine_report_id data.length).2 * 3 - data.length) 0) ∧
    (set_led_data_report channel data).length
      = 2 + (determine_report_id data.length).2 * 3 ∧
    (192 < data.length →
      set_led_data_report channel data = 0 :: channel :: data.take 192) := by
  refine ⟨?_, ?_, ?_⟩
  · unfold set_led_data_report
    rw [range_map_getD]
  · unfold set_led_data_report
    simp only [List.length_cons, List.length_map, List.length_range]
    omega
  · intro hlong
    unfold set_led_data_report
    have hmax : (determine_report_id data.length).2 = 64 := by
      unfold determine_report_id
      rw [if_neg (by omega), if_neg (by omega), if_neg (by omega)]
      by_cases hc : data.length ≤ 64 * 3
      · rw [if_pos hc]
      · rw [if_neg hc]
    rw [hmax, range_map_getD]
    have hz : (64 * 3 - data.length) = 0 := by omega
    rw [hz]
    simp

/-- Witness for C9 on a 193-byte frame: the trailing byte is dropped. -/
theorem set_led_data_payload_witness :
    set_led_data_report 1 (List.replicate 193 5)
      = 0 :: 1 :: (List.replicate 193 5).take 192 :=
  (set_led_data_payload 1 (List.replicate 193 5)).2.2
    (by rw [List.length_replicate]; omega)

-- C5 --------------------------------------------------------------------------

/-- C5: for an ASCII string (code points 1..127, so no NULs) the info-block decode of
the encode returns the string itself when it has at most 31 characters, and its first
31 characters otherwise; the encoded buffer is always 32 bytes, starts with format
byte 1, and is zero-filled past the string content. -/
theorem info_block_roundtrip (s : List Nat) (h : ∀ c ∈ s, 0 < c ∧ c < 128) :
    (s.length ≤ 31 → info_block_decode (string_to_info_block_data s) = s) ∧
    info_block_decode (string_to_info_block_data s) = s.take 31 ∧
    (string_to_info_block_data s).length = 32 ∧
    string_to_info_block_data s
      = 1 :: (s.take 31 ++ List.replicate (31 - s.length) 0) := by
  have henc := info_block_encode_eq s
  have hdec : info_block_decode (string_to_info_block_data s) = s.take 31 := by
    rw [henc]
    unfold info_block_decode
    simp only [List.drop_succ_cons, List.drop_zero]
    exact takeWhile_append_nonzero (s.take 31) _
      (fun c hc => Nat.pos_iff_ne_zero.mp (h c (List.mem_of_mem_take hc)).1)
  refine ⟨fun hle => ?_, hdec, ?_, henc⟩
  · rw [hdec, List.take_of_length_le hle]
  · rw [henc]
    simp only [List.length_cons, List.length_append, List.length_take,
      List.length_replicate]
    omega

/-- Witness for C5 on the concrete two-character ASCII string with codes [72, 105]. -/
theorem info_block_roundtrip_witness :
    info_block_decode (string_to_info_block_data [72, 105]) = [72, 105] :=
  (info_block_roundtrip [72, 105] (by decide)).1 (by decide)

-- C6 --------------------------------------------------------------------------

/-- C6: with `max_rgb_value` at its default 255 and inverse mode off, `morph` from a
read-back current color of (0, 0, 0) to the explicit target (10, 20, 30) over any
`steps ≥ 1` issues as its final set-color call exactly (10, 20, 30), not an
interpolated approximation. -/
theorem morph_final_call_exact (steps : Nat) (hsteps : 1 ≤ steps)
    (resolve_name resolve_hex : String → Option (Nat × Nat × Nat))
    (random_color : Nat × Nat × Nat) :
    (morph_set_color_calls 255 (0, 0, 0) 10 20 30 none none resolve_name
      resolve_hex random_color steps).getLast? = some (10, 20, 30) := by
  simp only [morph_set_color_calls]
  rw [List.getLast?_concat]
  norm_num [determine_rgb, truthy, remap_rgb_value_reverse, remap_color_reverse,
    remap_rgb_value, remap_color]

/-- Witness for C6 at steps = 3. -/
theorem morph_final_call_exact_witness :
    (morph_set_color_calls 255 (0, 0, 0) 10 20 30 none none (fun _ => none)
      (fun _ => none) (0, 0, 0) 3).getLast? = some (10, 20, 30) :=
  morph_final_call_exact 3 (by decide) (fun _ => none) (fun _ => none) (0, 0, 0)

-- C8 --------------------------------------------------------------------------

/-- C8: when the given color name or hex string fails to resolve, `set_color`
behaves exactly as if the explicit color (0, 0, 0) had been supplied: the same
report is built (black after remap and any inverse-mode inversion) and the overall
outcome coincides for both settings of the error-reporting flag — the failed
resolution itself surfaces no error. -/
theorem set_color_resolution_failure_is_black
    (inverse : Bool) (max_rgb_value channel index red green blue : Nat)
    (resolve_name resolve_hex : String → Option (Nat × Nat × Nat))
    (random_color : Nat × Nat × Nat)
    (error_reporting : Bool) (transfer : Nat × List Nat → Except Unit Unit) :
    (∀ (n : String) (hx : Option String), n ≠ "" → n ≠ "random" →
      resolve_name n = none →
      set_color_report inverse max_rgb_value channel index red green blue (some n)
          hx resolve_name resolve_hex random_color
        = set_color_report inverse max_rgb_value channel index 0 0 0 none none
          resolve_name resolve_hex random_color ∧
      set_color_result error_reporting transfer inverse max_rgb_value channel index
          red green blue (some n) hx resolve_name resolve_hex random_color
        = set_color_result error_reporting transfer inverse max_rgb_value channel
          index 0 0 0 none none resolve_name resolve_hex random_color) ∧
    (∀ (nm : Option String) (hs : String), truthy nm = false → hs ≠ "" →
      resolve_hex hs = none →
      set_color_report inverse max_rgb_value channel index red green blue nm
          (some hs) resolve_name resolve_hex random_color
        = set_color_report inverse max_rgb_value channel index 0 0 0 none none
          resolve_name resolve_hex random_color ∧
      set_color_result error_reporting transfer inverse max_rgb_value channel index
          red green blue nm (some hs) resolve_name resolve_hex random_color
        = set_color_result error_reporting transfer inverse max_rgb_value channel
          index 0 0 0 none none resolve_name resolve_hex random_color) := by
  constructor
  · intro n hx hne hnr hres
    have hd : determine_rgb max_rgb_value red green blue (some n) hx resolve_name
        resolve_hex random_color
        = determine_rgb max_rgb_value 0 0 0 none none resolve_name resolve_hex
          random_color := by
      simp [determine_rgb, truthy, hne, hnr, hres]
    have hrep : set_color_report inverse max_rgb_value channel index red green blue
        (some n) hx resolve_name resolve_hex random_color
        = set_color_report inverse max_rgb_value channel index 0 0 0 none none
          resolve_name resolve_hex random_color := by
      simp only [set_color_report, hd]
    exact ⟨hrep, by simp only [set_color_result, hrep]⟩
  · intro nm hs hnm hhs hres
    have hd : determine_rgb max_rgb_value red green blue nm (some hs) resolve_name
        resolve_hex random_color
        = determine_rgb max_rgb_value 0 0 0 none none resolve_name resolve_hex
          random_color := by
      simp only [determine_rgb]
      rw [hnm]
      simp [truthy, hhs, hres]
    have hrep : set_color_report inverse max_rgb_value channel index red green blue
        nm (some hs) resolve_name resolve_hex random_color
        = set_color_report inverse max_rgb_value channel index 0 0 0 none none
          resolve_name resolve_hex random_color := by
      simp only [set_color_report, hd]
    exact ⟨hrep, by simp only [set_color_result, hrep]⟩

/-- Witness for C8 with a concrete failing name resolver. -/
theorem set_color_resolution_failure_is_black_witness :
    set_color_report false 255 1 2 7 8 9 (some "nosuchcolor") none (fun _ => none)
        (fun _ => none) (1, 2, 3)
      = set_color_report false 255 1 2 0 0 0 none none (fun _ => none)
        (fun _ => none) (1, 2, 3) :=
  ((set_color_resolution_failure_is_black false 255 1 2 7 8 9 (fun _ => none)
      (fun _ => none) (1, 2, 3) true (fun _ => Except.ok ())).1 "nosuchcolor" none
    (by decide) (by decide) rfl).1

-- C10 -------------------------------------------------------------------------

/-- C10: `_get_color_rgb` applies the inverse-mode inversion (255 minus each byte)
only at index 0; for every index > 0 the color is decoded from the LED data frame
in GRB order and returned unchanged, with no inversion even when inverse mode is
on. -/
theorem get_color_inversion_only_at_index_zero (resp : List Nat) (index : Nat)
    (inv : Bool) (hpos : 0 < index) :
    get_color_rgb inv index resp = get_color_rgb false index resp ∧
    get_color_rgb inv index resp
      = ((get_led_data ((index + 1) * 3) resp).getD (index * 3 + 1) 0,
         (get_led_data ((index + 1) * 3) resp).getD (index * 3) 0,
         (get_led_data ((index + 1) * 3) resp).getD (index * 3 + 2) 0) ∧
    get_color_rgb true 0 resp
      = (255 - resp.getD 1 0, 255 - resp.getD 2 0, 255 - resp.getD 3 0) := by
  have hne : index ≠ 0 := Nat.pos_iff_ne_zero.mp hpos
  refine ⟨?_, ?_, ?_⟩ <;> simp [get_color_rgb, hne]

/-- Witness for C10 at index 1 on a concrete response frame. -/
theorem get_color_inversion_only_at_index_zero_witness :
    get_color_rgb true 1 [9, 1, 2, 3, 4, 5, 6, 7, 8]
      = get_color_rgb false 1 [9, 1, 2, 3, 4, 5, 6, 7, 8] :=
  (get_color_inversion_only_at_index_zero [9, 1, 2, 3, 4, 5, 6, 7, 8] 1 true
    (by decide)).1

-- C2 / C3 ---------------------------------------------------------------------

theorem control_transfer_attempts_01 {α : Type} (devices : List Device)
    (ctrl ctrl2 : Device → Nat → Except Unit α) (b : Backend)
    (hagree : ∀ dev, ctrl2 dev 0 = ctrl dev 0 ∧ ctrl2 dev 1 = ctrl dev 1) :
    control_transfer devices ctrl2 b = control_transfer devices ctrl b := by
  unfold control_transfer
  rw [(hagree b.device).1]
  cases ctrl b.device 0 with
  | ok r => rfl
  | error e =>
    cases hrd : refresh_device devices b with
    | error e2 => rfl
    | ok p =>
      obtain ⟨flag, b2⟩ := p
      cases flag
      · rfl
      · simp only [(hagree b2.device).2]

/-- Counterexample to C2 as stated: with a cached serial, a transport that fails
every transfer attempt, and re-enumeration that does find the matching device,
the retried transfer's failure escapes as the raw transport error rather than as
the "device communication lost" error. -/
theorem control_transfer_retry_failure_raw_error :
    control_transfer (α := Unit) [⟨some "BS1", false, true⟩]
        (fun _ _ => Except.error ()) ⟨⟨some "BS1", false, true⟩, "BS1"⟩
      = Except.error BsError.transport ∧
    (Except.error BsError.transport : Except BsError (Unit × Backend))
      ≠ Except.error (BsError.communicationLost "BS1") := by
  refine ⟨rfl, fun h => ?_⟩
  exact absurd (Except.error.inj h) (by decide)

/-- C2 (amended): on a first-attempt transport failure with a cached serial, if
re-enumeration finds no device matching the cached serial, `control_transfer`
fails with the "device communication lost" error carrying that serial; if a
matching device is found and re-opened but the retried transfer also fails, the
raw transport error escapes instead; and the recovery cycle runs at most once —
the outcome depends only on transfer attempts 0 and 1, never on further
attempts. -/
theorem control_transfer_failure_modes {α : Type} (devices : List Device)
    (ctrl : Device → Nat → Except Unit α) (b : Backend)
    (hfail : ctrl b.device 0 = Except.error ()) (hserial : b.serial ≠ "") :
    (find_by_serial devices b.serial = none →
      control_transfer devices ctrl b
        = Except.error (BsError.communicationLost b.serial)) ∧
    (∀ d, find_by_serial devices b.serial = some d →
      open_device d = Except.ok () → ctrl d 1 = Except.error () →
      control_transfer devices ctrl b = Except.error BsError.transport) ∧
    (∀ ctrl2 : Device → Nat → Except Unit α,
      (∀ dev, ctrl2 dev 0 = ctrl dev 0 ∧ ctrl2 dev 1 = ctrl dev 1) →
      control_transfer devices ctrl2 b = control_transfer devices ctrl b) := by
  refine ⟨?_, ?_, ?_⟩
  · intro hfind
    simp [control_transfer, refresh_device, hfail, hserial, hfind]
  · intro d hfind hopen hretry
    simp [control_transfer, refresh_device, hfail, hserial, hfind, hopen, hretry]
  · intro ctrl2 hagree
    exact control_transfer_attempts_01 devices ctrl ctrl2 b hagree

/-- Witness for C2 (amended): no matching device on re-enumeration. -/
theorem control_transfer_failure_modes_witness :
    control_transfer (α := Unit) [] (fun _ _ => Except.error ())
        ⟨⟨some "BS1", false, true⟩, "BS1"⟩
      = Except.error (BsError.communicationLost "BS1") :=
  (control_transfer_failure_modes [] (fun _ _ => Except.error ())
      ⟨⟨some "BS1", false, true⟩, "BS1"⟩ rfl (by decide)).1 rfl

/-- C3: on a first-attempt transport failure with a cached serial, when
re-enumeration finds a device whose serial descriptor matches the cached serial,
that device re-opens, and the retried transfer succeeds, `control_transfer`
rebinds the backend to the found device and returns the retried result without
raising; the transfer is retried exactly once (the outcome depends only on
attempts 0 and 1). -/
theorem control_transfer_recovery {α : Type} (devices : List Device)
    (ctrl : Device → Nat → Except Unit α) (b : Backend) (d : Device) (r : α)
    (hfail : ctrl b.device 0 = Except.error ()) (hserial : b.serial ≠ "")
    (hfind : find_by_serial devices b.serial = some d)
    (hopen : open_device d = Except.ok ())
    (hretry : ctrl d 1 = Except.ok r) :
    control_transfer devices ctrl b = Except.ok (r, { b with device := d }) ∧
    (∀ ctrl2 : Device → Nat → Except Unit α,
      (∀ dev, ctrl2 dev 0 = ctrl dev 0 ∧ ctrl2 dev 1 = ctrl dev 1) →
      control_transfer devices ctrl2 b = control_transfer devices ctrl b) := by
  constructor
  · simp [control_transfer, refresh_device, hfail, hserial, hfind, hopen, hretry]
  · intro ctrl2 hagree
    exact control_transfer_attempts_01 devices ctrl ctrl2 b hagree

/-- Witness for C3: a transport failing attempt 0 and succeeding attempt 1,
with the matching device present. -/
theorem control_transfer_recovery_witness :
    control_transfer [⟨some "BS1", false, true⟩]
        (fun _ k => if k = 0 then Except.error () else Except.ok 42)
        ⟨⟨none, false, true⟩, "BS1"⟩
      = Except.ok (42, ⟨⟨some "BS1", false, true⟩, "BS1"⟩) :=
  (control_transfer_recovery [⟨some "BS1", false, true⟩]
      (fun _ k => if k = 0 then Except.error () else Except.ok 42)
      ⟨⟨none, false, true⟩, "BS1"⟩ ⟨some "BS1", false, true⟩ 42
      rfl (by decide) rfl rfl rfl).1

-- C4 --------------------------------------------------------------------------

theorem foldl_inv {α β : Type} (inv : α → Prop) (f : α → β → α)
    (hf : ∀ x b, inv x → inv (f x b)) :
    ∀ (l : List β) (a : α), inv a → inv (l.foldl f a) := by
  intro l
  induction l with
  | nil => intro a ha; exact ha
  | cons b t ih => intro a ha; exact ih (f a b) (hf a b ha)

theorem getD_map_length (l : List (List GRB)) (i : Nat) :
    (l.map List.length).getD i 0 = (l.getD i []).length := by
  induction l generalizing i with
  | nil => simp [List.getD]
  | cons h t ih =>
    cases i with
    | zero => simp [List.getD]
    | succ j => simpa [List.getD] using ih j

theorem set_getD_self {α : Type} (l : List α) (i : Nat) (d : α) :
    l.set i (l.getD i d) = l := by
  induction l generalizing i with
  | nil => simp
  | cons h t ih =>
    cases i with
    | zero => simp [List.getD]
    | succ j => simpa [List.getD] using ih j

theorem data_set_lengths (dat : List (List GRB)) (c i : Nat) (v : GRB) :
    (dat.set c ((dat.getD c []).set i v)).map List.length
      = dat.map List.length := by
  rw [List.map_set, List.length_set, ← getD_map_length, set_getD_self]

theorem proSetColor_lengths (p : BlinkStickPro) (c i r g b : Nat) (rm : Bool) :
    proChannelLengths (proSetColor p c i r g b rm) = proChannelLengths p :=
  data_set_lengths p.data c i _

theorem proApply_lengths (p : BlinkStickPro) (op : ProOp) :
    proChannelLengths (proApply p op) = proChannelLengths p := by
  cases op with
  | setColor c i r g b rm => exact proSetColor_lengths p c i r g b rm
  | clear =>
    have pres : ∀ (c : Nat) (q : BlinkStickPro) (x : Nat),
        proChannelLengths q = proChannelLengths p →
        proChannelLengths (proSetColor q c x 0 0 0 true) = proChannelLengths p :=
      fun c q x hq => (proSetColor_lengths q c x 0 0 0 true).trans hq
    exact foldl_inv _ _ (pres 2) _ _
      (foldl_inv _ _ (pres 1) _ _
        (foldl_inv _ _ (pres 0) _ _ rfl))
  | sendData c => rfl
  | sendDataAll =>
    have hall : proSendDataAll p = p := by
      simp [proSendDataAll, proSendData]
    rw [show proApply p ProOp.sendDataAll = proSendDataAll p from rfl, hall]

theorem matrixSetColor_shapeOK (rc rr gc gr bc br : Nat)
    (m : BlinkStickProMatrix) (h : MatrixShapeOK rc rr gc gr bc br m)
    (x y : Int) (r g b : Nat) (rm : Bool) :
    MatrixShapeOK rc rr gc gr bc br (matrixSetColor m x y r g b rm) := by
  obtain ⟨h1, h2, h3, h4, h5, h6, h7⟩ := h
  refine ⟨h1, h2, h3, h4, h5, ?_, h7⟩
  show (if (0 : Int) ≤ y * (m.cols : Int) + x then
      m.matrix_data.set (y * (m.cols : Int) + x).toNat _ else m.matrix_data).length
    = m.rows * m.cols
  split
  · rw [List.length_set]; exact h6
  · exact h6

theorem lineLoop_shapeOK (rc rr gc gr bc br : Nat) (is_steep : Bool)
    (r g b : Nat) (delta_x : Int) (delta_y : Nat) (y_step : Int) :
    ∀ (fuel : Nat) (x y error : Int) (m : BlinkStickProMatrix)
      (pts : List (Int × Int)), MatrixShapeOK rc rr gc gr bc br m →
      MatrixShapeOK rc rr gc gr bc br
        (lineLoop is_steep r g b delta_x delta_y y_step fuel x y error m pts).1 := by
  intro fuel
  induction fuel with
  | zero => intro x y error m pts h; exact h
  | succ n ih =>
    intro x y error m pts h
    simp only [lineLoop]
    apply ih
    split
    · exact matrixSetColor_shapeOK rc rr gc gr bc br m h _ _ _ _ _ _
    · exact matrixSetColor_shapeOK rc rr gc gr bc br m h _ _ _ _ _ _

theorem matrixLine_shapeOK (rc rr gc gr bc br : Nat) (m : BlinkStickProMatrix)
    (h : MatrixShapeOK rc rr gc gr bc br m) (x1 y1 x2 y2 : Int) (r g b : Nat) :
    MatrixShapeOK rc rr gc gr bc br (matrixLine m x1 y1 x2 y2 r g b).1 := by
  simp only [matrixLine]
  exact lineLoop_shapeOK rc rr gc gr bc br _ _ _ _ _ _ _ _ _ _ _ m [] h

theorem matrixRectangle_shapeOK (rc rr gc gr bc br : Nat)
    (m : BlinkStickProMatrix) (h : MatrixShapeOK rc rr gc gr bc br m)
    (x1 y1 x2 y2 : Int) (r g b : Nat) :
    MatrixShapeOK rc rr gc gr bc br (matrixRectangle m x1 y1 x2 y2 r g b) := by
  simp only [matrixRectangle]
  exact matrixLine_shapeOK rc rr gc gr bc br _
    (matrixLine_shapeOK rc rr gc gr bc br _
      (matrixLine_shapeOK rc rr gc gr bc br _
        (matrixLine_shapeOK rc rr gc gr bc br _ h _ _ _ _ _ _ _)
        _ _ _ _ _ _ _) _ _ _ _ _ _ _) _ _ _ _ _ _ _

set_option maxHeartbeats 2000000 in
theorem matrixNumber_shapeOK (rc rr gc gr bc br : Nat)
    (m : BlinkStickProMatrix) (h : MatrixShapeOK rc rr gc gr bc br m)
    (x y : Int) (n r g b : Nat) :
    MatrixShapeOK rc rr gc gr bc br (matrixNumber m x y n r g b) := by
  simp only [matrixNumber]
  split_ifs
  all_goals
    repeat' (first
      | apply matrixSetColor_shapeOK rc rr gc gr bc br
      | apply matrixLine_shapeOK rc rr gc gr bc br
      | apply matrixRectangle_shapeOK rc rr gc gr bc br
      | exact h)

theorem matrixClear_shapeOK (rc rr gc gr bc br : Nat)
    (m : BlinkStickProMatrix) (h : MatrixShapeOK rc rr gc gr bc br m) :
    MatrixShapeOK rc rr gc gr bc br (matrixClear m) := by
  refine foldl_inv (MatrixShapeOK rc rr gc gr bc br) _ ?_ _ _ h
  intro acc y hacc
  refine foldl_inv (MatrixShapeOK rc rr gc gr bc br) _ ?_ _ _ hacc
  intro acc2 x hacc2
  exact matrixSetColor_shapeOK rc rr gc gr bc br acc2 hacc2 _ _ _ _ _ _

theorem shiftLeftRowPass_shapeOK (rc rr gc gr bc br : Nat) (cols : Nat)
    (acc : BlinkStickProMatrix) (h : MatrixShapeOK rc rr gc gr bc br acc)
    (y : Nat) :
    MatrixShapeOK rc rr gc gr bc br (shiftLeftRowPass cols acc y) := by
  refine foldl_inv (MatrixShapeOK rc rr gc gr bc br) _ ?_ _ _ h
  intro acc2 x hacc2
  exact matrixSetColor_shapeOK rc rr gc gr bc br acc2 hacc2 _ _ _ _ _ _

theorem matrixShiftLeft_shapeOK (rc rr gc gr bc br : Nat)
    (m : BlinkStickProMatrix) (h : MatrixShapeOK rc rr gc gr bc br m)
    (remove : Bool) :
    MatrixShapeOK rc rr gc gr bc br (matrixShiftLeft m remove) := by
  simp only [matrixShiftLeft]
  have h1 : MatrixShapeOK rc rr gc gr bc br
      ((List.range m.rows).foldl (shiftLeftRowPass m.cols) m) :=
    foldl_inv (MatrixShapeOK rc rr gc gr bc br) _
      (fun acc y hacc => shiftLeftRowPass_shapeOK rc rr gc gr bc br m.cols acc
        hacc y) _ _ h
  split
  · refine foldl_inv (MatrixShapeOK rc rr gc gr bc br) _ ?_ _ _ h1
    intro acc y hacc
    exact matrixSetColor_shapeOK rc rr gc gr bc br acc hacc _ _ _ _ _ _
  · refine foldl_inv (MatrixShapeOK rc rr gc gr bc br) _ ?_ _ _ h1
    intro acc y hacc
    exact matrixSetColor_shapeOK rc rr gc gr bc br acc hacc _ _ _ _ _ _

theorem matrixShiftRight_shapeOK (rc rr gc gr bc br : Nat)
    (m : BlinkStickProMatrix) (h : MatrixShapeOK rc rr gc gr bc br m)
    (remove : Bool) :
    MatrixShapeOK rc rr gc gr bc br (matrixShiftRight m remove) := by
  simp only [matrixShiftRight]
  have h1 : MatrixShapeOK rc rr gc gr bc br
      ((List.range m.rows).foldl (fun acc (y : Nat) =>
        ((List.range' 1 (m.cols - 1)).reverse).foldl (fun acc2 (x : Nat) =>
          let c := matrixGetColor acc2 ((x : Int) - 1) (y : Int)
          matrixSetColor acc2 (x : Int) (y : Int) c.1 c.2.1 c.2.2 false) acc)
        m) := by
    refine foldl_inv (MatrixShapeOK rc rr gc gr bc br) _ ?_ _ _ h
    intro acc y hacc
    refine foldl_inv (MatrixShapeOK rc rr gc gr bc br) _ ?_ _ _ hacc
    intro acc2 x hacc2
    exact matrixSetColor_shapeOK rc rr gc gr bc br acc2 hacc2 _ _ _ _ _ _
  split
  · refine foldl_inv (MatrixShapeOK rc rr gc gr bc br) _ ?_ _ _ h1
    intro acc y hacc
    exact matrixSetColor_shapeOK rc rr gc gr bc br acc hacc _ _ _ _ _ _
  · refine foldl_inv (MatrixShapeOK rc rr gc gr bc br) _ ?_ _ _ h1
    intro acc y hacc
    exact matrixSetColor_shapeOK rc rr gc gr bc br acc hacc _ _ _ _ _ _

theorem matrixShiftDown_shapeOK (rc rr gc gr bc br : Nat)
    (m : BlinkStickProMatrix) (h : MatrixShapeOK rc rr gc gr bc br m)
    (remove : Bool) :
    MatrixShapeOK rc rr gc gr bc br (matrixShiftDown m remove) := by
  simp only [matrixShiftDown]
  have h1 : MatrixShapeOK rc rr gc gr bc br
      (((List.range' 1 (m.rows - 1)).reverse).foldl (fun acc (y : Nat) =>
        (List.range m.cols).foldl (fun acc2 (x : Nat) =>
          let c := matrixGetColor acc2 (x : Int) ((y : Int) - 1)
          matrixSetColor acc2 (x : Int) (y : Int) c.1 c.2.1 c.2.2 false) acc)
        m) := by
    refine foldl_inv (MatrixShapeOK rc rr gc gr bc br) _ ?_ _ _ h
    intro acc y hacc
    refine foldl_inv (MatrixShapeOK rc rr gc gr bc br) _ ?_ _ _ hacc
    intro acc2 x hacc2
    exact matrixSetColor_shapeOK rc rr gc gr bc br acc2 hacc2 _ _ _ _ _ _
  split
  · refine foldl_inv (MatrixShapeOK rc rr gc gr bc br) _ ?_ _ _ h1
    intro acc x hacc
    exact matrixSetColor_shapeOK rc rr gc gr bc br acc hacc _ _ _ _ _ _
  · refine foldl_inv (MatrixShapeOK rc rr gc gr bc br) _ ?_ _ _ h1
    intro acc x hacc
    exact matrixSetColor_shapeOK rc rr gc gr bc br acc hacc _ _ _ _ _ _

theorem matrixShiftUp_shapeOK (rc rr gc gr bc br : Nat)
    (m : BlinkStickProMatrix) (h : MatrixShapeOK rc rr gc gr bc br m)
    (remove : Bool) :
    MatrixShapeOK rc rr gc gr bc br (matrixShiftUp m remove) := by
  simp only [matrixShiftUp]
  have h1 : MatrixShapeOK rc rr gc gr bc br
      ((List.range m.cols).foldl (fun acc (x : Nat) =>
        (List.range (m.rows - 1)).foldl (fun acc2 (y : Nat) =>
          let c := matrixGetColor acc2 (x : Int) ((y : Int) + 1)
          matrixSetColor acc2 (x : Int) (y : Int) c.1 c.2.1 c.2.2 false) acc)
        m) := by
    refine foldl_inv (MatrixShapeOK rc rr gc gr bc br) _ ?_ _ _ h
    intro acc x hacc
    refine foldl_inv (MatrixShapeOK rc rr gc gr bc br) _ ?_ _ _ hacc
    intro acc2 y hacc2
    exact matrixSetColor_shapeOK rc rr gc gr bc br acc2 hacc2 _ _ _ _ _ _
  split
  · refine foldl_inv (MatrixShapeOK rc rr gc gr bc br) _ ?_ _ _ h1
    intro acc x hacc
    exact matrixSetColor_shapeOK rc rr gc gr bc br acc hacc _ _ _ _ _ _
  · refine foldl_inv (MatrixShapeOK rc rr gc gr bc br) _ ?_ _ _ h1
    intro acc x hacc
    exact matrixSetColor_shapeOK rc rr gc gr bc br acc hacc _ _ _ _ _ _

theorem pySlice_length (l : List GRB) (s e : Nat) :
    (pySlice l s e).length = min e l.length - s := by
  unfold pySlice
  rw [List.length_drop, List.length_take]

theorem slices_fold_length (l : List GRB) (cols s e : Nat) (hse : s ≤ e)
    (n : Nat) (hn : n * cols ≤ l.length) (hec : e ≤ cols) :
    ((List.range n).foldl (fun acc y =>
      acc ++ pySlice l (y * cols + s) (y * cols + e)) []).length
      = n * (e - s) := by
  induction n with
  | zero => simp
  | succ k ih =>
    rw [List.range_succ, List.foldl_append]
    simp only [List.foldl_cons, List.foldl_nil]
    rw [List.length_append]
    rw [ih (le_trans (Nat.mul_le_mul_right cols (Nat.le_succ k)) hn)]
    rw [pySlice_length]
    have hk : k * cols + e ≤ l.length := by
      calc k * cols + e ≤ k * cols + cols := by omega
        _ = (k + 1) * cols := by ring
        _ ≤ l.length := hn
    rw [Nat.min_eq_left hk]
    have h2 : k * cols + e - (k * cols + s) = e - s := by omega
    rw [h2]
    ring

theorem matrixSendData_shapeOK (rc rr gc gr bc br : Nat)
    (hr : rc = 0 ∨ rr = max rr (max gr br))
    (hg : gc = 0 ∨ gr = max rr (max gr br))
    (hb : bc = 0 ∨ br = max rr (max gr br))
    (m : BlinkStickProMatrix) (h : MatrixShapeOK rc rr gc gr bc br m)
    (channel : Nat) :
    MatrixShapeOK rc rr gc gr bc br (matrixSendData m channel) := by
  obtain ⟨h1, h2, h3, h4, h5, h6, h7⟩ := h
  refine ⟨h1, h2, h3, h4, h5, h6, ?_⟩
  simp only [matrixSendData]
  rw [List.map_set, h7]
  have key : ∀ s e : Nat, s ≤ e → e ≤ m.cols →
      ((List.range m.rows).foldl (fun acc y =>
        acc ++ pySlice m.matrix_data (y * m.cols + s) (y * m.cols + e))
        []).length = m.rows * (e - s) :=
    fun s e hse hec =>
      slices_fold_length m.matrix_data m.cols s e hse m.rows
        (le_of_eq h6.symm) hec
  rw [key
    (if channel = 0 then 0 else if channel = 1 then m.r_columns
      else if channel = 2 then m.r_columns + m.g_columns else 0)
    (if channel = 0 then m.r_columns
      else if channel = 1 then m.r_columns + m.g_columns
      else if channel = 2 then m.r_columns + m.g_columns + m.b_columns else 0)
    (by split_ifs <;> omega) (by split_ifs <;> omega)]
  have hgoal : ∀ v : Nat, v = [rc * rr, gc * gr, bc * br].getD channel 0 →
      [rc * rr, gc * gr, bc * br].set channel v
        = [rc * rr, gc * gr, bc * br] := by
    intro v hv
    rw [hv]
    exact set_getD_self _ _ _
  apply hgoal
  by_cases hc0 : channel = 0
  · simp only [if_pos hc0]
    subst hc0
    show m.rows * (m.r_columns - 0) = rc * rr
    rcases hr with hz | he
    · rw [h1, hz]; omega
    · rw [h1, h4, ← he, Nat.sub_zero]; ring
  · simp only [if_neg hc0]
    by_cases hc1 : channel = 1
    · simp only [if_pos hc1]
      subst hc1
      show m.rows * (m.r_columns + m.g_columns - m.r_columns) = gc * gr
      have hsub : m.r_columns + m.g_columns - m.r_columns = m.g_columns := by
        omega
      rw [hsub]
      rcases hg with hz | he
      · rw [h2, hz]; omega
      · rw [h2, h4, ← he]; ring
    · simp only [if_neg hc1]
      by_cases hc2 : channel = 2
      · simp only [if_pos hc2]
        subst hc2
        show m.rows * (m.r_columns + m.g_columns + m.b_columns
            - (m.r_columns + m.g_columns)) = bc * br
        have hsub : m.r_columns + m.g_columns + m.b_columns
            - (m.r_columns + m.g_columns) = m.b_columns := by omega
        rw [hsub]
        rcases hb with hz | he
        · rw [h3, hz]; omega
        · rw [h3, h4, ← he]; ring
      · simp only [if_neg hc2]
        obtain ⟨k, rfl⟩ : ∃ k, channel = k + 3 :=
          ⟨channel - 3, by omega⟩
        show m.rows * (0 - 0) = [rc * rr, gc * gr, bc * br].getD (k + 3) 0
        have hd : [rc * rr, gc * gr, bc * br].getD (k + 3) 0 = 0 := rfl
        rw [hd]
        omega

theorem matrixSendDataAll_shapeOK (rc rr gc gr bc br : Nat)
    (hr : rc = 0 ∨ rr = max rr (max gr br))
    (hg : gc = 0 ∨ gr = max rr (max gr br))
    (hb : bc = 0 ∨ br = max rr (max gr br))
    (m : BlinkStickProMatrix) (h : MatrixShapeOK rc rr gc gr bc br m) :
    MatrixShapeOK rc rr gc gr bc br (matrixSendDataAll m) := by
  have s1 : ∀ q, MatrixShapeOK rc rr gc gr bc br q →
      ∀ c, MatrixShapeOK rc rr gc gr bc br (matrixSendData q c) :=
    fun q hq c => matrixSendData_shapeOK rc rr gc gr bc br hr hg hb q hq c
  simp only [matrixSendDataAll]
  repeat' (first
    | exact h
    | apply s1
    | split)

theorem matrixApply_shapeOK (rc rr gc gr bc br : Nat)
    (hr : rc = 0 ∨ rr = max rr (max gr br))
    (hg : gc = 0 ∨ gr = max rr (max gr br))
    (hb : bc = 0 ∨ br = max rr (max gr br))
    (m : BlinkStickProMatrix) (h : MatrixShapeOK rc rr gc gr bc br m)
    (op : MatrixOp) :
    MatrixShapeOK rc rr gc gr bc br (matrixApply m op) := by
  cases op with
  | setColor x y r g b rm => exact matrixSetColor_shapeOK rc rr gc gr bc br m h x y r g b rm
  | clear => exact matrixClear_shapeOK rc rr gc gr bc br m h
  | shiftLeft rm => exact matrixShiftLeft_shapeOK rc rr gc gr bc br m h rm
  | shiftRight rm => exact matrixShiftRight_shapeOK rc rr gc gr bc br m h rm
  | shiftDown rm => exact matrixShiftDown_shapeOK rc rr gc gr bc br m h rm
  | shiftUp rm => exact matrixShiftUp_shapeOK rc rr gc gr bc br m h rm
  | line x1 y1 x2 y2 r g b => exact matrixLine_shapeOK rc rr gc gr bc br m h x1 y1 x2 y2 r g b
  | rectangle x1 y1 x2 y2 r g b => exact matrixRectangle_shapeOK rc rr gc gr bc br m h x1 y1 x2 y2 r g b
  | number x y n r g b => exact matrixNumber_shapeOK rc rr gc gr bc br m h x y n r g b
  | sendData c => exact matrixSendData_shapeOK rc rr gc gr bc br hr hg hb m h c
  | sendDataAll => exact matrixSendDataAll_shapeOK rc rr gc gr bc br hr hg hb m h

theorem matrixInit_shapeOK (rc rr gc gr bc br maxv : Nat) :
    MatrixShapeOK rc rr gc gr bc br (matrixInit rc rr gc gr bc br maxv) := by
  refine ⟨rfl, rfl, rfl, rfl, rfl, ?_, ?_⟩ <;> simp [matrixInit]

/-- Counterexample to C4 as stated: on a matrix whose channels have unequal row
counts (R: 1 column x 1 row, G: 1 column x 2 rows), a single `send_data(0)`
rebuilds channel 0 to `rows * r_columns = 2` pixels, while its construction
length was `r_columns * r_rows = 1`. -/
theorem matrix_send_data_resizes_channel :
    matrixChannelLengths
        (matrixApply (matrixInit 1 1 1 2 0 0 255) (MatrixOp.sendData 0))
      = [2, 2, 0] ∧
    matrixChannelLengths (matrixInit 1 1 1 2 0 0 255) = [1, 2, 0] ∧
    (2 : Nat) ≠ 1 := by
  refine ⟨by decide, by decide, by decide⟩

/-- C4 (amended): every operation of the linear framebuffer (`BlinkStickPro`)
preserves the per-channel buffer lengths fixed at construction, over any
operation sequence; the matrix framebuffer preserves them over any operation
sequence provided every channel with a nonzero column count has its row count
equal to the overall row count (otherwise `send_data` rebuilds that channel to
`rows * columns` pixels, as the counterexample shows). -/
theorem framebuffer_channel_lengths_preserved :
    (∀ (r g b maxv : Nat) (ops : List ProOp),
      proChannelLengths (proApplyAll (proInit r g b maxv) ops)
        = proChannelLengths (proInit r g b maxv)) ∧
    (∀ (rc rr gc gr bc br maxv : Nat) (ops : List MatrixOp),
      (rc = 0 ∨ rr = max rr (max gr br)) →
      (gc = 0 ∨ gr = max rr (max gr br)) →
      (bc = 0 ∨ br = max rr (max gr br)) →
      matrixChannelLengths
          (matrixApplyAll (matrixInit rc rr gc gr bc br maxv) ops)
        = matrixChannelLengths (matrixInit rc rr gc gr bc br maxv)) := by
  constructor
  · intro r g b maxv ops
    exact foldl_inv
      (fun q => proChannelLengths q = proChannelLengths (proInit r g b maxv))
      proApply (fun q op hq => (proApply_lengths q op).trans hq) ops _ rfl
  · intro rc rr gc gr bc br maxv ops hr hg hb
    have hfin : MatrixShapeOK rc rr gc gr bc br
        (matrixApplyAll (matrixInit rc rr gc gr bc br maxv) ops) :=
      foldl_inv (MatrixShapeOK rc rr gc gr bc br) matrixApply
        (fun q op hq => matrixApply_shapeOK rc rr gc gr bc br hr hg hb q hq op)
        ops _ (matrixInit_shapeOK rc rr gc gr bc br maxv)
    have hini : MatrixShapeOK rc rr gc gr bc br
        (matrixInit rc rr gc gr bc br maxv) :=
      matrixInit_shapeOK rc rr gc gr bc br maxv
    show (matrixApplyAll (matrixInit rc rr gc gr bc br maxv) ops).data.map
        List.length = (matrixInit rc rr gc gr bc br maxv).data.map List.length
    rw [hfin.2.2.2.2.2.2, hini.2.2.2.2.2.2]

/-- Witness for C4 (amended) on an equal-rows matrix with a send and a shift. -/
theorem framebuffer_channel_lengths_preserved_witness :
    matrixChannelLengths (matrixApplyAll (matrixInit 1 1 1 1 0 0 255)
        [MatrixOp.sendData 0, MatrixOp.shiftLeft true])
      = matrixChannelLengths (matrixInit 1 1 1 1 0 0 255) :=
  framebuffer_channel_lengths_preserved.2 1 1 1 1 0 0 255
    [MatrixOp.sendData 0, MatrixOp.shiftLeft true]
    (Or.inr (by decide)) (Or.inr (by decide)) (Or.inl rfl)

-- C7 --------------------------------------------------------------------------

theorem getD_set_eq_of_lt {α : Type} (l : List α) (i : Nat) (a d : α)
    (h : i < l.length) : (l.set i a).getD i d = a := by
  induction l generalizing i with
  | nil => simp at h
  | cons hd t ih =>
    cases i with
    | zero => simp [List.getD]
    | succ j => simpa [List.getD] using ih j (by simpa using h)

theorem getD_set_ne {α : Type} (l : List α) (i j : Nat) (a d : α)
    (h : i ≠ j) : (l.set i a).getD j d = l.getD j d := by
  induction l generalizing i j with
  | nil => simp
  | cons hd t ih =>
    cases i with
    | zero =>
      cases j with
      | zero => exact absurd rfl h
      | succ j2 => simp [List.getD]
    | succ i2 =>
      cases j with
      | zero => simp [List.getD]
      | succ j2 => simpa [List.getD] using ih i2 j2 (fun hc => h (by rw [hc]))

theorem coord_index_inj (cols x x2 y y2 : Nat) (hx : x < cols) (hx2 : x2 < cols)
    (h : y * cols + x = y2 * cols + x2) : x = x2 ∧ y = y2 := by
  have hc : 0 < cols := Nat.lt_of_le_of_lt (Nat.zero_le x) hx
  have e1 : (y * cols + x) % cols = x := by
    rw [Nat.add_comm, Nat.add_mul_mod_self_right, Nat.mod_eq_of_lt hx]
  have e2 : (y2 * cols + x2) % cols = x2 := by
    rw [Nat.add_comm, Nat.add_mul_mod_self_right, Nat.mod_eq_of_lt hx2]
  have hxx : x = x2 := by rw [← e1, ← e2, h]
  refine ⟨hxx, ?_⟩
  have hyy : y * cols = y2 * cols := by omega
  exact Nat.eq_of_mul_eq_mul_right hc hyy

theorem matrixGetColor_nat (m : BlinkStickProMatrix) (x y : Nat) :
    matrixGetColor m (x : Int) (y : Int)
      = ((m.matrix_data.getD (y * m.cols + x) (0, 0, 0)).2.1,
         (m.matrix_data.getD (y * m.cols + x) (0, 0, 0)).1,
         (m.matrix_data.getD (y * m.cols + x) (0, 0, 0)).2.2) := by
  simp only [matrixGetColor]
  have hcast : (y : Int) * (m.cols : Int) + (x : Int)
      = ((y * m.cols + x : Nat) : Int) := by push_cast; ring
  rw [hcast, if_pos (Int.ofNat_nonneg _), Int.toNat_ofNat]

theorem matrixSetColor_nat (m : BlinkStickProMatrix) (x y r g b : Nat) :
    matrixSetColor m (x : Int) (y : Int) r g b false
      = { m with matrix_data := m.matrix_data.set (y * m.cols + x) (g, r, b) } := by
  simp only [matrixSetColor, Bool.false_eq_true, if_false]
  have hcast : (y : Int) * (m.cols : Int) + (x : Int)
      = ((y * m.cols + x : Nat) : Int) := by push_cast; ring
  rw [hcast, if_pos (Int.ofNat_nonneg _), Int.toNat_ofNat]

theorem getColor_setColor_nat (m : BlinkStickProMatrix)
    (hlen : m.matrix_data.length = m.rows * m.cols)
    (x2 y2 x y r g b : Nat) (hx : x < m.cols) (hy : y < m.rows)
    (hx2 : x2 < m.cols) (hy2 : y2 < m.rows) :
    matrixGetColor (matrixSetColor m (x2 : Int) (y2 : Int) r g b false)
        (x : Int) (y : Int)
      = if x = x2 ∧ y = y2 then (r, g, b)
        else matrixGetColor m (x : Int) (y : Int) := by
  rw [matrixSetColor_nat]
  rw [show matrixGetColor
      { m with matrix_data := m.matrix_data.set (y2 * m.cols + x2) (g, r, b) }
      (x : Int) (y : Int)
    = (((m.matrix_data.set (y2 * m.cols + x2) (g, r, b)).getD
          (y * m.cols + x) (0, 0, 0)).2.1,
       ((m.matrix_data.set (y2 * m.cols + x2) (g, r, b)).getD
          (y * m.cols + x) (0, 0, 0)).1,
       ((m.matrix_data.set (y2 * m.cols + x2) (g, r, b)).getD
          (y * m.cols + x) (0, 0, 0)).2.2)
    from matrixGetColor_nat _ x y]
  by_cases heq : x = x2 ∧ y = y2
  · obtain ⟨rfl, rfl⟩ := heq
    rw [if_pos ⟨rfl, rfl⟩]
    have hidx : y * m.cols + x < m.matrix_data.length := by
      rw [hlen]
      calc y * m.cols + x < y * m.cols + m.cols := by omega
        _ = (y + 1) * m.cols := by ring
        _ ≤ m.rows * m.cols := Nat.mul_le_mul_right _ hy
    rw [getD_set_eq_of_lt _ _ _ _ hidx]
  · rw [if_neg heq]
    have hne : y2 * m.cols + x2 ≠ y * m.cols + x := by
      intro hc
      obtain ⟨hx', hy'⟩ := coord_index_inj m.cols x2 x y2 y hx2 hx hc
      exact heq ⟨hx'.symm, hy'.symm⟩
    rw [getD_set_ne _ _ _ _ _ hne, matrixGetColor_nat]

theorem setColor_sameGeom (m0 s : BlinkStickProMatrix) (hs : SameGeom m0 s)
    (x y : Int) (r g b : Nat) (rm : Bool) :
    SameGeom m0 (matrixSetColor s x y r g b rm) := by
  obtain ⟨h1, h2, h3⟩ := hs
  refine ⟨h1, h2, ?_⟩
  simp only [matrixSetColor]
  split
  · rw [List.length_set]; exact h3
  · exact h3

theorem intCast_add_one (x : Nat) :
    ((x : Int) + 1) = (((x + 1 : Nat)) : Int) := by
  push_cast
  ring

theorem rowPass_aux (m0 : BlinkStickProMatrix)
    (hlen0 : m0.matrix_data.length = m0.rows * m0.cols) (y : Nat)
    (hy : y < m0.rows) :
    ∀ (k : Nat), k ≤ m0.cols - 1 → ∀ (s : BlinkStickProMatrix),
      SameGeom m0 s →
      SameGeom m0 ((List.range k).foldl (fun acc2 (x : Nat) =>
        let c := matrixGetColor acc2 ((x : Int) + 1) (y : Int)
        matrixSetColor acc2 (x : Int) (y : Int) c.1 c.2.1 c.2.2 false) s) ∧
      ∀ x y2, x < m0.cols → y2 < m0.rows →
        matrixGetColor ((List.range k).foldl (fun acc2 (x : Nat) =>
          let c := matrixGetColor acc2 ((x : Int) + 1) (y : Int)
          matrixSetColor acc2 (x : Int) (y : Int) c.1 c.2.1 c.2.2 false) s)
            (x : Int) (y2 : Int)
          = if y2 = y ∧ x < k
            then matrixGetColor s ((x + 1 : Nat) : Int) (y : Int)
            else matrixGetColor s (x : Int) (y2 : Int) := by
  intro k
  induction k with
  | zero =>
    intro _ s hs
    refine ⟨hs, ?_⟩
    intro x y2 hx hy2
    rw [if_neg (by omega)]
    rfl
  | succ n ih =>
    intro hk s hs
    obtain ⟨ihg, ihc⟩ := ih (by omega) s hs
    rw [List.range_succ, List.foldl_append, List.foldl_cons, List.foldl_nil]
    simp only []
    rw [intCast_add_one n]
    have hgF := ihg
    obtain ⟨hgr, hgc, hgl⟩ := hgF
    have hlenF : ((List.range n).foldl (fun acc2 (x : Nat) =>
        let c := matrixGetColor acc2 ((x : Int) + 1) (y : Int)
        matrixSetColor acc2 (x : Int) (y : Int) c.1 c.2.1 c.2.2 false)
        s).matrix_data.length
        = ((List.range n).foldl (fun acc2 (x : Nat) =>
            let c := matrixGetColor acc2 ((x : Int) + 1) (y : Int)
            matrixSetColor acc2 (x : Int) (y : Int) c.1 c.2.1 c.2.2 false)
            s).rows
          * ((List.range n).foldl (fun acc2 (x : Nat) =>
            let c := matrixGetColor acc2 ((x : Int) + 1) (y : Int)
            matrixSetColor acc2 (x : Int) (y : Int) c.1 c.2.1 c.2.2 false)
            s).cols := by
      rw [hgl, hlen0, hgr, hgc]
    constructor
    · exact setColor_sameGeom m0 _ ihg _ _ _ _ _ _
    · intro x y2 hx hy2
      rw [getColor_setColor_nat _ hlenF n y x y2 _ _ _
        (by omega) (by omega) (by omega) (by omega)]
      by_cases hA : x = n ∧ y2 = y
      · obtain ⟨rfl, rfl⟩ := hA
        rw [if_pos ⟨rfl, rfl⟩]
        rw [ihc (x + 1) y2 (by omega) hy2]
        rw [if_neg (by omega)]
        rw [if_pos ⟨rfl, by omega⟩]
      · rw [if_neg hA]
        rw [ihc x y2 hx hy2]
        by_cases hB : y2 = y ∧ x < n
        · rw [if_pos hB, if_pos ⟨hB.1, by omega⟩]
        · rw [if_neg hB, if_neg (by
            intro hcon
            obtain ⟨hyy, hxx⟩ := hcon
            rcases Nat.lt_succ_iff_lt_or_eq.mp hxx with hlt | heq2
            · exact hB ⟨hyy, hlt⟩
            · exact hA ⟨heq2, hyy⟩)]

theorem rowPass_get (m0 : BlinkStickProMatrix)
    (hlen0 : m0.matrix_data.length = m0.rows * m0.cols)
    (y : Nat) (hy : y < m0.rows) (s : BlinkStickProMatrix)
    (hs : SameGeom m0 s) :
    SameGeom m0 (shiftLeftRowPass m0.cols s y) ∧
    ∀ x y2, x < m0.cols → y2 < m0.rows →
      matrixGetColor (shiftLeftRowPass m0.cols s y) (x : Int) (y2 : Int)
        = if y2 = y ∧ x + 1 < m0.cols
          then matrixGetColor s ((x + 1 : Nat) : Int) (y : Int)
          else matrixGetColor s (x : Int) (y2 : Int) := by
  obtain ⟨hg, hc⟩ := rowPass_aux m0 hlen0 y hy (m0.cols - 1) (le_refl _) s hs
  refine ⟨hg, ?_⟩
  intro x y2 hx hy2
  simp only [shiftLeftRowPass]
  rw [hc x y2 hx hy2]
  by_cases hcx : y2 = y ∧ x + 1 < m0.cols
  · rw [if_pos ⟨hcx.1, by omega⟩, if_pos hcx]
  · rw [if_neg (by omega), if_neg hcx]

theorem outer_aux (m0 : BlinkStickProMatrix)
    (hlen0 : m0.matrix_data.length = m0.rows * m0.cols) :
    ∀ j, j ≤ m0.rows → ∀ s, SameGeom m0 s →
      SameGeom m0 ((List.range j).foldl (shiftLeftRowPass m0.cols) s) ∧
      ∀ x y2, x < m0.cols → y2 < m0.rows →
        matrixGetColor ((List.range j).foldl (shiftLeftRowPass m0.cols) s)
            (x : Int) (y2 : Int)
          = if y2 < j ∧ x + 1 < m0.cols
            then matrixGetColor s ((x + 1 : Nat) : Int) (y2 : Int)
            else matrixGetColor s (x : Int) (y2 : Int) := by
  intro j
  induction j with
  | zero =>
    intro _ s hs
    refine ⟨hs, ?_⟩
    intro x y2 hx hy2
    rw [if_neg (by omega)]
    rfl
  | succ n ih =>
    intro hj s hs
    obtain ⟨ihg, ihc⟩ := ih (by omega) s hs
    rw [List.range_succ, List.foldl_append, List.foldl_cons, List.foldl_nil]
    have hrp := rowPass_get m0 hlen0 n (by omega) _ ihg
    refine ⟨hrp.1, ?_⟩
    intro x y2 hx hy2
    rw [hrp.2 x y2 hx hy2]
    by_cases hA : y2 = n ∧ x + 1 < m0.cols
    · obtain ⟨rfl, hx1⟩ := hA
      rw [if_pos ⟨rfl, hx1⟩]
      rw [ihc (x + 1) y2 hx1 hy2]
      rw [if_neg (by omega)]
      rw [if_pos ⟨by omega, hx1⟩]
    · rw [if_neg hA]
      rw [ihc x y2 hx hy2]
      by_cases hB : y2 < n ∧ x + 1 < m0.cols
      · rw [if_pos hB, if_pos ⟨by omega, hB.2⟩]
      · rw [if_neg hB, if_neg (by omega)]

theorem blacken_aux (m0 : BlinkStickProMatrix)
    (hlen0 : m0.matrix_data.length = m0.rows * m0.cols) (hc1 : 1 ≤ m0.cols) :
    ∀ j, j ≤ m0.rows → ∀ s, SameGeom m0 s →
      SameGeom m0 ((List.range j).foldl (fun acc (y : Nat) =>
        matrixSetColor acc (((m0.cols - 1 : Nat)) : Int) (y : Int) 0 0 0 false)
        s) ∧
      ∀ x y2, x < m0.cols → y2 < m0.rows →
        matrixGetColor ((List.range j).foldl (fun acc (y : Nat) =>
          matrixSetColor acc (((m0.cols - 1 : Nat)) : Int) (y : Int) 0 0 0
            false) s) (x : Int) (y2 : Int)
          = if x = m0.cols - 1 ∧ y2 < j then (0, 0, 0)
            else matrixGetColor s (x : Int) (y2 : Int) := by
  intro j
  induction j with
  | zero =>
    intro _ s hs
    refine ⟨hs, ?_⟩
    intro x y2 hx hy2
    rw [if_neg (by omega)]
    rfl
  | succ n ih =>
    intro hj s hs
    obtain ⟨ihg, ihc⟩ := ih (by omega) s hs
    rw [List.range_succ, List.foldl_append, List.foldl_cons, List.foldl_nil]
    have hT1 := ihg.1
    have hT2 := ihg.2.1
    have hT3 := ihg.2.2
    have hlenT : ((List.range n).foldl (fun acc (y : Nat) =>
        matrixSetColor acc (((m0.cols - 1 : Nat)) : Int) (y : Int) 0 0 0 false)
        s).matrix_data.length
        = ((List.range n).foldl (fun acc (y : Nat) =>
            matrixSetColor acc (((m0.cols - 1 : Nat)) : Int) (y : Int) 0 0 0
              false) s).rows
          * ((List.range n).foldl (fun acc (y : Nat) =>
            matrixSetColor acc (((m0.cols - 1 : Nat)) : Int) (y : Int) 0 0 0
              false) s).cols := by
      rw [hT3, hlen0, hT1, hT2]
    constructor
    · exact setColor_sameGeom m0 _ ihg _ _ _ _ _ _
    · intro x y2 hx hy2
      rw [getColor_setColor_nat _ hlenT (m0.cols - 1) n x y2 0 0 0
        (by omega) (by omega) (by omega) (by omega)]
      by_cases hA : x = m0.cols - 1 ∧ y2 = n
      · rw [if_pos hA, if_pos ⟨hA.1, by omega⟩]
      · rw [if_neg hA]
        rw [ihc x y2 hx hy2]
        by_cases hB : x = m0.cols - 1 ∧ y2 < n
        · rw [if_pos hB, if_pos ⟨hB.1, by omega⟩]
        · rw [if_neg hB, if_neg (by omega)]

theorem shiftLeftRemove_get (m0 : BlinkStickProMatrix)
    (hlen0 : m0.matrix_data.length = m0.rows * m0.cols) (hc1 : 1 ≤ m0.cols)
    (s : BlinkStickProMatrix) (hs : SameGeom m0 s) :
    SameGeom m0 (matrixShiftLeft s true) ∧
    ∀ x y, x < m0.cols → y < m0.rows →
      matrixGetColor (matrixShiftLeft s true) (x : Int) (y : Int)
        = if x = m0.cols - 1 then (0, 0, 0)
          else matrixGetColor s ((x + 1 : Nat) : Int) (y : Int) := by
  have hcast : ((m0.cols : Int) - 1) = (((m0.cols - 1 : Nat)) : Int) := by
    omega
  have hrows := hs.1
  have hcols := hs.2.1
  simp only [matrixShiftLeft, eq_self_iff_true, if_true]
  rw [hrows, hcols, hcast]
  have houter := outer_aux m0 hlen0 m0.rows (le_refl _) s hs
  have hblack := blacken_aux m0 hlen0 hc1 m0.rows (le_refl _) _ houter.1
  refine ⟨hblack.1, ?_⟩
  intro x y hx hy
  rw [hblack.2 x y hx hy]
  by_cases hxe : x = m0.cols - 1
  · rw [if_pos ⟨hxe, hy⟩, if_pos hxe]
  · rw [if_neg (fun hcon => hxe hcon.1), if_neg hxe]
    rw [houter.2 x y hx hy]
    rw [if_pos ⟨hy, by omega⟩]

theorem shift_iter_aux (m0 : BlinkStickProMatrix)
    (hlen0 : m0.matrix_data.length = m0.rows * m0.cols) (hc1 : 1 ≤ m0.cols) :
    ∀ (k : Nat) (s : BlinkStickProMatrix), SameGeom m0 s →
      SameGeom m0 ((fun t => matrixShiftLeft t true)^[k] s) ∧
      ∀ x y, x < m0.cols → y < m0.rows →
        matrixGetColor ((fun t => matrixShiftLeft t true)^[k] s)
            (x : Int) (y : Int)
          = if m0.cols ≤ x + k then (0, 0, 0)
            else matrixGetColor s ((x + k : Nat) : Int) (y : Int) := by
  intro k
  induction k with
  | zero =>
    intro s hs
    refine ⟨hs, ?_⟩
    intro x y hx hy
    rw [if_neg (by omega), Function.iterate_zero_apply, Nat.add_zero]
  | succ n ih =>
    intro s hs
    rw [Function.iterate_succ_apply]
    have hshift := shiftLeftRemove_get m0 hlen0 hc1 s hs
    obtain ⟨ihg, ihc⟩ := ih (matrixShiftLeft s true) hshift.1
    refine ⟨ihg, ?_⟩
    intro x y hx hy
    rw [ihc x y hx hy]
    by_cases hk : m0.cols ≤ x + n
    · rw [if_pos hk, if_pos (by omega)]
    · rw [if_neg hk]
      rw [hshift.2 (x + n) y (by omega) hy]
      by_cases hlast : x + n = m0.cols - 1
      · rw [if_pos hlast, if_pos (by omega)]
      · rw [if_neg hlast, if_neg (by omega)]
        rw [show x + n + 1 = x + (n + 1) from by omega]

/-- C7: for every matrix framebuffer with at least one column and any initial
pixel contents (any flat buffer of the invariant length `rows * cols`),
applying `shift_left` with `remove = true` exactly `cols` times yields a buffer
in which every in-bounds pixel (x, y) reads back black (0, 0, 0). -/
theorem shift_left_remove_cols_times_black (m : BlinkStickProMatrix)
    (hlen : m.matrix_data.length = m.rows * m.cols) (hcols : 1 ≤ m.cols)
    (x y : Nat) (hx : x < m.cols) (hy : y < m.rows) :
    matrixGetColor ((fun s => matrixShiftLeft s true)^[m.cols] m)
        (x : Int) (y : Int) = (0, 0, 0) := by
  have haux := shift_iter_aux m hlen hcols m.cols m ⟨rfl, rfl, rfl⟩
  rw [haux.2 x y hx hy, if_pos (by omega)]

/-- Witness for C7 on a concrete 2x2 matrix with a nonzero pixel. -/
theorem shift_left_remove_cols_times_black_witness :
    matrixGetColor ((fun s => matrixShiftLeft s true)^[(matrixSetColor
          (matrixInit 2 2 0 0 0 0 255) 1 1 9 8 7 false).cols]
        (matrixSetColor (matrixInit 2 2 0 0 0 0 255) 1 1 9 8 7 false))
      (1 : Int) (0 : Int) = (0, 0, 0) :=
  shift_left_remove_cols_times_black
    (matrixSetColor (matrixInit 2 2 0 0 0 0 255) 1 1 9 8 7 false)
    (by decide) (by decide) 1 0 (by decide) (by decide)

end BlinkStickLib
